import Mathlib

/-!
# Synacor virtual machine (src/main.c): shallow embedding

The interpreter keeps its state in module-level globals: a byte-addressed
memory block, a separate stack block, the byte offset `rPC` and the eight
registers `r0 .. r7`.  The embedding makes that state one record, turns each
C function into a function on the record, and returns `none` wherever the C
code leaves defined behaviour (access outside an allocated block, a write
through the NULL pointer returned by `get_register`, a call through a NULL
handler, signed overflow, division by zero).

Machine integers are natural numbers; every store into a `u16` or `u8`
object is reduced modulo 2^16 or 2^8.  Diagnostic `LOG` output is left out:
`output` collects only the bytes written by `instruction_out`.
-/

namespace Synacor

/-! ## Fixed-width conversions -/

/-- Conversion of a C `int` to `u16` (unsigned short). -/
def to_u16 (x : Int) : Nat := (x % 65536).toNat

/-- Conversion of the `int` returned by `getchar` to `char`, then to `u16`.
The signedness of plain `char` is fixed by the compiler; `schar` says whether
it is signed. -/
def char_to_u16 (schar : Bool) (x : Int) : Nat :=
  if schar then to_u16 ((x + 128) % 256 - 128) else to_u16 (x % 256)

/-! ## Stack -/

/-- The struct Stack: a block of `u16` slots and the index of the next free
slot. -/
structure Stack where
  data : Nat → Nat
  pointer : Nat

/-- Number of whole `u16` slots inside the block obtained by `malloc(0xFFFF)`. -/
def stack_slots : Nat := 0xFFFF / 2

/-- The function `stack_init`; the fresh block is never read before it is
written, its content is taken to be zero. -/
def stack_init : Stack := { data := fun _ => 0, pointer := 0 }

/-- The function `stack_push`: store at `data[pointer]`, then advance the
`u16` pointer. -/
def stack_push (stack : Stack) (value : Nat) : Option Stack :=
  if stack.pointer < stack_slots then
    some { data := (fun i => if i = stack.pointer then value % 65536 else stack.data i),
           pointer := (stack.pointer + 1) % 65536 }
  else none

/-- The function `stack_pop`: read `data[pointer - 1]` (index computed in
`int`), then step the `u16` pointer back. -/
def stack_pop (stack : Stack) : Option (Nat × Stack) :=
  if 1 ≤ stack.pointer ∧ stack.pointer - 1 < stack_slots then
    some (stack.data (stack.pointer - 1),
          { stack with pointer := to_u16 ((stack.pointer : Int) - 1) })
  else none

/-! ## Memory -/

/-- The struct Memory: a block of bytes and the `size` field. -/
structure Memory where
  mem : Nat → Nat
  size : Nat

/-- Extent in bytes of the block allocated by `mem_init`:
`malloc(sizeof(u16) * mem->size)` with `mem->size = 0x7FFF`. -/
def mem_bytes : Nat := 2 * 0x7FFF

/-- The function `mem_init`: `size = 0x7FFF`, block zero-filled. -/
def mem_init : Memory := { mem := fun _ => 0, size := 0x7FFF }

/-- The function `get_next_pair` on a pointer `buffer` into the memory block
(given as a byte offset): the pair is `(buffer[1] << 8) + buffer[0]` stored
into a `u16`; the returned pointer is `buffer + 2`. -/
def get_next_pair (m : Memory) (buffer : Nat) : Option (Nat × Nat) :=
  if buffer + 1 < mem_bytes then
    some (buffer + 2, ((m.mem (buffer + 1) <<< 8) + m.mem buffer) % 65536)
  else none

/-- The function `mem_set`: the `u16` address is doubled in place, then the
low byte and the high byte of `value` are stored. -/
def mem_set (m : Memory) (addr value : Nat) : Option Memory :=
  let addr := (addr * 2) % 65536
  if addr + 1 < mem_bytes then
    some { m with mem := (fun i =>
      if i = addr + 1 then (value >>> 8) % 256
      else if i = addr then value % 256
      else m.mem i) }
  else none

/-- The function `mem_get`: the `u16` address is doubled in place, then the
pair at that byte offset is read. -/
def mem_get (m : Memory) (addr : Nat) : Option Nat :=
  let addr := (addr * 2) % 65536
  (get_next_pair m addr).map Prod.snd

/-! ## Machine state -/

/-- The globals of main.c together with the two standard streams. -/
structure Machine where
  stack : Stack
  memory : Memory
  rPC : Nat
  r0 : Nat
  r1 : Nat
  r2 : Nat
  r3 : Nat
  r4 : Nat
  r5 : Nat
  r6 : Nat
  r7 : Nat
  input : List Nat
  output : List Nat

/-- Names of the eight register globals; the targets of the pointers returned
by `get_register`. -/
inductive Reg where
  | r0 | r1 | r2 | r3 | r4 | r5 | r6 | r7
  deriving DecidableEq, Repr

/-- Read through a register pointer. -/
def reg_read (s : Machine) : Reg → Nat
  | .r0 => s.r0 | .r1 => s.r1 | .r2 => s.r2 | .r3 => s.r3
  | .r4 => s.r4 | .r5 => s.r5 | .r6 => s.r6 | .r7 => s.r7

/-- Write through a register pointer. -/
def reg_write (s : Machine) (r : Reg) (v : Nat) : Machine :=
  match r with
  | .r0 => { s with r0 := v } | .r1 => { s with r1 := v }
  | .r2 => { s with r2 := v } | .r3 => { s with r3 := v }
  | .r4 => { s with r4 := v } | .r5 => { s with r5 := v }
  | .r6 => { s with r6 := v } | .r7 => { s with r7 := v }

/-- The function `is_valid` (defined in main.c, called nowhere). -/
def is_valid (opcode : Nat) : Bool := opcode < 32776

/-- The function `is_literal`. -/
def is_literal (opcode : Nat) : Bool := opcode < 32768

/-- The function `is_register`. -/
def is_register (opcode : Nat) : Bool := 32768 ≤ opcode && opcode ≤ 32775

/-- The function `get_register`; `none` is the NULL pointer. -/
def get_register (opcode : Nat) : Option Reg :=
  if opcode = 32768 then some .r0
  else if opcode = 32769 then some .r1
  else if opcode = 32770 then some .r2
  else if opcode = 32771 then some .r3
  else if opcode = 32772 then some .r4
  else if opcode = 32773 then some .r5
  else if opcode = 32774 then some .r6
  else if opcode = 32775 then some .r7
  else none

/-- The statement `if (is_register(x)) x = *get_register(x);` used for every
value operand. -/
def load_operand (s : Machine) (x : Nat) : Option Nat :=
  if is_register x then (get_register x).map (reg_read s) else some x

/-- The statement `*a = v;` for a pointer `a` returned by `get_register`. -/
def store_reg (s : Machine) (a : Option Reg) (v : Nat) : Option Machine :=
  a.map fun r => reg_write s r v

/-- Value returned by an instruction that falls through: `rPC + 2 + k`. -/
def advance (s : Machine) (k : Nat) : Int := ((s.rPC + 2 + k : Nat) : Int)

/-! ## Instructions

Each handler receives the byte offset `buffer` of its first operand and
returns the new state with the `int` result (`-1` stops the loop, any other
value becomes the next `rPC`). -/

/-- The function `instruction_halt`. -/
def instruction_halt (s : Machine) (_buffer : Nat) : Option (Machine × Int) :=
  some (s, -1)

/-- The function `instruction_set`. -/
def instruction_set (s : Machine) (buffer : Nat) : Option (Machine × Int) := do
  let (buffer, next) ← get_next_pair s.memory buffer
  let a := get_register next
  let (_, next) ← get_next_pair s.memory buffer
  let next ← load_operand s next
  let s ← store_reg s a next
  pure (s, advance s 4)

/-- The function `instruction_push`. -/
def instruction_push (s : Machine) (buffer : Nat) : Option (Machine × Int) := do
  let (_, next) ← get_next_pair s.memory buffer
  let next ← load_operand s next
  let stack ← stack_push s.stack next
  let s := { s with stack := stack }
  pure (s, advance s 2)

/-- The function `instruction_pop`. -/
def instruction_pop (s : Machine) (buffer : Nat) : Option (Machine × Int) := do
  let (_, next) ← get_next_pair s.memory buffer
  let a := get_register next
  let (value, stack) ← stack_pop s.stack
  let s ← store_reg { s with stack := stack } a value
  pure (s, advance s 2)

/-- The function `instruction_eq`. -/
def instruction_eq (s : Machine) (buffer : Nat) : Option (Machine × Int) := do
  let (buffer, next) ← get_next_pair s.memory buffer
  let a := get_register next
  let (buffer, b) ← get_next_pair s.memory buffer
  let b ← load_operand s b
  let (_, c) ← get_next_pair s.memory buffer
  let c ← load_operand s c
  let s ← store_reg s a (if b = c then 1 else 0)
  pure (s, advance s 6)

/-- The function `instruction_gt`. -/
def instruction_gt (s : Machine) (buffer : Nat) : Option (Machine × Int) := do
  let (buffer, next) ← get_next_pair s.memory buffer
  let a := get_register next
  let (buffer, b) ← get_next_pair s.memory buffer
  let b ← load_operand s b
  let (_, c) ← get_next_pair s.memory buffer
  let c ← load_operand s c
  let s ← store_reg s a (if b > c then 1 else 0)
  pure (s, advance s 6)

/-- The function `instruction_jmp`. -/
def instruction_jmp (s : Machine) (buffer : Nat) : Option (Machine × Int) := do
  let (_, next) ← get_next_pair s.memory buffer
  let next ← load_operand s next
  pure (s, ((next * 2 : Nat) : Int))

/-- The function `instruction_jt`. -/
def instruction_jt (s : Machine) (buffer : Nat) : Option (Machine × Int) := do
  let (buffer, a) ← get_next_pair s.memory buffer
  let a ← load_operand s a
  let (_, b) ← get_next_pair s.memory buffer
  let b ← load_operand s b
  if a ≠ 0 then pure (s, ((b * 2 : Nat) : Int)) else pure (s, advance s 4)

/-- The function `instruction_jf`. -/
def instruction_jf (s : Machine) (buffer : Nat) : Option (Machine × Int) := do
  let (buffer, a) ← get_next_pair s.memory buffer
  let a ← load_operand s a
  let (_, b) ← get_next_pair s.memory buffer
  let b ← load_operand s b
  if a = 0 then pure (s, ((b * 2 : Nat) : Int)) else pure (s, advance s 4)

/-- The function `instruction_add`: `*a = (b + c) % 32768` in `int`. -/
def instruction_add (s : Machine) (buffer : Nat) : Option (Machine × Int) := do
  let (buffer, next) ← get_next_pair s.memory buffer
  let a := get_register next
  let (buffer, b) ← get_next_pair s.memory buffer
  let b ← load_operand s b
  let (_, c) ← get_next_pair s.memory buffer
  let c ← load_operand s c
  let s ← store_reg s a ((b + c) % 32768)
  pure (s, advance s 6)

/-- The function `instruction_mult`: `*a = (b * c) % 32768`; the product is
formed in 32-bit `int` and must not exceed `INT_MAX`. -/
def instruction_mult (s : Machine) (buffer : Nat) : Option (Machine × Int) := do
  let (buffer, next) ← get_next_pair s.memory buffer
  let a := get_register next
  let (buffer, b) ← get_next_pair s.memory buffer
  let b ← load_operand s b
  let (_, c) ← get_next_pair s.memory buffer
  let c ← load_operand s c
  if b * c < 2 ^ 31 then
    let s ← store_reg s a ((b * c) % 32768)
    pure (s, advance s 6)
  else none

/-- The function `instruction_mod`: `*a = b % c`, undefined for `c = 0`. -/
def instruction_mod (s : Machine) (buffer : Nat) : Option (Machine × Int) := do
  let (buffer, next) ← get_next_pair s.memory buffer
  let a := get_register next
  let (buffer, b) ← get_next_pair s.memory buffer
  let b ← load_operand s b
  let (_, c) ← get_next_pair s.memory buffer
  let c ← load_operand s c
  if c ≠ 0 then
    let s ← store_reg s a (b % c)
    pure (s, advance s 6)
  else none

/-- The function `instruction_and`. -/
def instruction_and (s : Machine) (buffer : Nat) : Option (Machine × Int) := do
  let (buffer, next) ← get_next_pair s.memory buffer
  let a := get_register next
  let (buffer, b) ← get_next_pair s.memory buffer
  let b ← load_operand s b
  let (_, c) ← get_next_pair s.memory buffer
  let c ← load_operand s c
  let s ← store_reg s a (b &&& c)
  pure (s, advance s 6)

/-- The function `instruction_or`. -/
def instruction_or (s : Machine) (buffer : Nat) : Option (Machine × Int) := do
  let (buffer, next) ← get_next_pair s.memory buffer
  let a := get_register next
  let (buffer, b) ← get_next_pair s.memory buffer
  let b ← load_operand s b
  let (_, c) ← get_next_pair s.memory buffer
  let c ← load_operand s c
  let s ← store_reg s a (b ||| c)
  pure (s, advance s 6)

/-- The value left in `*a` by `*a = ~b; *a ^= (1 << 15);`: the `int`
complement `-b - 1` is stored into the `u16`, then bit 15 is flipped. -/
def not_result (b : Nat) : Nat := (to_u16 (-(b : Int) - 1) ^^^ (1 <<< 15)) % 65536

/-- The function `instruction_not`. -/
def instruction_not (s : Machine) (buffer : Nat) : Option (Machine × Int) := do
  let (buffer, next) ← get_next_pair s.memory buffer
  let a := get_register next
  let (_, b) ← get_next_pair s.memory buffer
  let b ← load_operand s b
  let s ← store_reg s a (not_result b)
  pure (s, advance s 4)

/-- The function `instruction_rmem`. -/
def instruction_rmem (s : Machine) (buffer : Nat) : Option (Machine × Int) := do
  let (buffer, next) ← get_next_pair s.memory buffer
  let a := get_register next
  let (_, b) ← get_next_pair s.memory buffer
  let b ← load_operand s b
  let v ← mem_get s.memory b
  let s ← store_reg s a v
  pure (s, advance s 4)

/-- The function `instruction_wmem`. -/
def instruction_wmem (s : Machine) (buffer : Nat) : Option (Machine × Int) := do
  let (buffer, a) ← get_next_pair s.memory buffer
  let a ← load_operand s a
  let (_, b) ← get_next_pair s.memory buffer
  let b ← load_operand s b
  let memory ← mem_set s.memory a b
  let s := { s with memory := memory }
  pure (s, advance s 4)

/-- The function `instruction_call`: pushes `(rPC + 2 + 2) / 2`. -/
def instruction_call (s : Machine) (buffer : Nat) : Option (Machine × Int) := do
  let (_, a) ← get_next_pair s.memory buffer
  let a ← load_operand s a
  let stack ← stack_push s.stack ((s.rPC + 2 + 2) / 2)
  pure ({ s with stack := stack }, ((a * 2 : Nat) : Int))

/-- The function `instruction_ret`. -/
def instruction_ret (s : Machine) (_buffer : Nat) : Option (Machine × Int) := do
  let (addr, stack) ← stack_pop s.stack
  pure ({ s with stack := stack }, ((addr * 2 : Nat) : Int))

/-- The function `instruction_out`: `%c` writes the operand converted to
`unsigned char`. -/
def instruction_out (s : Machine) (buffer : Nat) : Option (Machine × Int) := do
  let (_, next) ← get_next_pair s.memory buffer
  let next ← load_operand s next
  let s := { s with output := s.output ++ [next % 256] }
  pure (s, advance s 2)

/-- The library call `getchar`: the next byte of standard input, or `EOF`
(-1) when none is left. -/
def getchar (s : Machine) : Int × Machine :=
  match s.input with
  | [] => (-1, s)
  | c :: rest => (((c % 256 : Nat) : Int), { s with input := rest })

/-- The function `instruction_in`: `char in = getchar(); *reg = in;`. -/
def instruction_in (schar : Bool) (s : Machine) (buffer : Nat) :
    Option (Machine × Int) := do
  let (_, addr) ← get_next_pair s.memory buffer
  let reg := get_register addr
  let (c, s) := getchar s
  let s ← store_reg s reg (char_to_u16 schar c)
  pure (s, advance s 2)

/-- The function `instruction_noop`. -/
def instruction_noop (s : Machine) (_buffer : Nat) : Option (Machine × Int) :=
  some (s, advance s 0)

/-! ## Dispatch and the fetch loop -/

/-- The function `get_instruction`; `none` is the NULL handler. -/
def get_instruction (schar : Bool) (opcode : Nat) :
    Option (Machine → Nat → Option (Machine × Int)) :=
  if opcode = 0 then some instruction_halt
  else if opcode = 1 then some instruction_set
  else if opcode = 2 then some instruction_push
  else if opcode = 3 then some instruction_pop
  else if opcode = 4 then some instruction_eq
  else if opcode = 5 then some instruction_gt
  else if opcode = 6 then some instruction_jmp
  else if opcode = 7 then some instruction_jt
  else if opcode = 8 then some instruction_jf
  else if opcode = 9 then some instruction_add
  else if opcode = 10 then some instruction_mult
  else if opcode = 11 then some instruction_mod
  else if opcode = 12 then some instruction_and
  else if opcode = 13 then some instruction_or
  else if opcode = 14 then some instruction_not
  else if opcode = 15 then some instruction_rmem
  else if opcode = 16 then some instruction_wmem
  else if opcode = 17 then some instruction_call
  else if opcode = 18 then some instruction_ret
  else if opcode = 19 then some instruction_out
  else if opcode = 20 then some (instruction_in schar)
  else if opcode = 21 then some instruction_noop
  else none

/-- The function `operate`: look the handler up, stop on a NULL handler,
otherwise run it and hand its result on. -/
def operate (schar : Bool) (s : Machine) (opcode buffer : Nat) :
    Option (Machine × Int) :=
  match get_instruction schar opcode with
  | none => none
  | some instr => instr s buffer

/-- Whether the fetch loop goes on after an iteration. -/
inductive Status where
  | running | halted
  deriving DecidableEq, Repr

/-- One iteration of the `for (;;)` loop of `parse`: fetch the opcode at
`buffer + rPC`, run `operate` on `buffer + rPC + 2`, leave the loop on `-1`,
otherwise store the result into the `u16` `rPC`. -/
def parse_iter (schar : Bool) (s : Machine) : Option (Status × Machine) := do
  let (_, opcode) ← get_next_pair s.memory s.rPC
  let (s, ret) ← operate schar s opcode (s.rPC + 2)
  if ret = -1 then pure (.halted, s)
  else pure (.running, { s with rPC := to_u16 ret })

/-- The `for (;;)` loop of `parse`, cut off after `fuel` iterations (`none`
also when the fuel runs out). -/
def parse_loop (schar : Bool) : Nat → Machine → Option Machine
  | 0, _ => none
  | fuel + 1, s =>
    match parse_iter schar s with
    | none => none
    | some (.halted, s) => some s
    | some (.running, s) => parse_loop schar fuel s

/-- The call `fread(memory.mem, 1, filesize, file)`: the bytes of the file go
to the start of the memory block, which must be able to hold them. -/
def fread (m : Memory) (file : List Nat) : Option Memory :=
  if file.length ≤ mem_bytes then
    some { m with mem := (fun i =>
      if i < file.length then file.getD i 0 % 256 else m.mem i) }
  else none

/-- The state in which `parse` enters its loop: `stack_init`, `mem_init`,
the file read into memory, `rPC = 0`, the registers at their static initial
value 0. -/
def boot (file input : List Nat) : Option Machine :=
  (fread mem_init file).map fun memory =>
    { stack := stack_init, memory := memory, rPC := 0,
      r0 := 0, r1 := 0, r2 := 0, r3 := 0, r4 := 0, r5 := 0, r6 := 0, r7 := 0,
      input := input, output := [] }

/-- The function `parse` from the loaded file on: boot, then loop. -/
def parse (schar : Bool) (fuel : Nat) (file input : List Nat) : Option Machine :=
  (boot file input).bind (parse_loop schar fuel)

/-- States the loop of `parse` passes through when started on `file` with
standard input `input`. -/
inductive Reachable (schar : Bool) (file input : List Nat) : Machine → Prop where
  | start {s : Machine} : boot file input = some s → Reachable schar file input s
  | iter {s t : Machine} : Reachable schar file input s →
      parse_iter schar s = some (.running, t) → Reachable schar file input t

/-! ## Vocabulary of the specification -/

/-- The word stored at byte offset `off` of the machine memory. -/
def word_at (s : Machine) (off : Nat) : Option Nat :=
  (get_next_pair s.memory off).map Prod.snd

/-- The value `val(w)` of an operand word as the specification defines it:
the word itself for a literal (`w < 32768`), the content of the referenced
register for a register reference (`w` in 32768..32775), nothing for a word
from 32776 on. -/
def val (s : Machine) (w : Nat) : Option Nat :=
  if w < 32768 then some w
  else if w ≤ 32775 then (get_register w).map (reg_read s)
  else none

/-- The contract the specification gives for `not`: the 16-bit complement of
the operand value, masked with `0x7FFF`. -/
def not_contract (v : Nat) : Nat := (65535 - v % 65536) &&& 0x7FFF

/-- The value the interpreter takes for an operand word in a value position:
that of `val` for a literal or a register reference, the word itself for a
word from 32776 on. -/
def word_value (s : Machine) (w : Nat) : Option Nat :=
  if 32776 ≤ w then some w else val s w

/-- Little-endian byte image of a list of words. -/
def image_of_words : List Nat → List Nat
  | [] => []
  | w :: ws => (w % 256) :: ((w / 256) % 256) :: image_of_words ws

/-- The state before `boot`: fresh stack, fresh memory, everything else 0. -/
def blank : Machine :=
  { stack := stack_init, memory := mem_init, rPC := 0,
    r0 := 0, r1 := 0, r2 := 0, r3 := 0, r4 := 0, r5 := 0, r6 := 0, r7 := 0,
    input := [], output := [] }

/-- The booted machine for a program given as a list of words. -/
def machine_of_words (words input : List Nat) : Machine :=
  (boot (image_of_words words) input).getD blank

/-- Every register and every stack slot holds a 16-bit word. -/
def word_sized (s : Machine) : Prop :=
  (∀ r, reg_read s r < 65536) ∧ ∀ i, s.stack.data i < 65536

/-- Operand count of each opcode in the instruction table of the
specification. -/
def isa_operands (op : Nat) : Nat :=
  [0, 2, 1, 1, 3, 3, 1, 2, 2, 3, 3, 3, 3, 3, 2, 2, 2, 1, 0, 1, 1, 0].getD op 0

/-! ## Concrete machines -/

/-- Machine about to run `add r0 r0 c` with `r0 = 32767`. -/
def add_state (c : Nat) : Machine :=
  { machine_of_words [9, 32768, 32768, c] [] with r0 := 32767 }

/-- Machine about to run `mult r0 r0 32767` with `r0 = 32767`. -/
def mult_state : Machine :=
  { machine_of_words [10, 32768, 32768, 32767] [] with r0 := 32767 }

/-- Machine about to run `not r0 r1` with `r1 = v`. -/
def not_state (v : Nat) : Machine :=
  { machine_of_words [14, 32768, 32769] [] with r1 := v }

/-- The call/return program of the specification: `call 4` at address 0,
`out 89` at 2, `halt` at 4, `out 88` at 5, `ret` at 7. -/
def call_program : List Nat := [17, 4, 19, 89, 0, 19, 88, 18]

/-- Machine about to run `call 4` of `call_program` with `depth` words on the
stack. -/
def call_state (depth : Nat) : Machine :=
  { machine_of_words call_program [] with
    stack := { data := fun _ => 0, pointer := depth } }

/-- Machine about to run the `ret` of `call_program`, the return address 2
on top of an otherwise empty stack. -/
def ret_state : Machine :=
  { machine_of_words call_program [] with
    stack := { data := fun i => if i = 0 then 2 else 0, pointer := 1 },
    rPC := 14, output := [88] }

/-- Machine about to run `push r1; pop r0` with `r1 = 1234` and `depth` words
on the stack. -/
def push_pop_state (depth : Nat) : Machine :=
  { machine_of_words [2, 32769, 3, 32768] [] with
    r1 := 1234, stack := { data := fun _ => 7, pointer := depth } }

/-- Machine about to run `jt r0 5` (opcode 7) or `jf r0 5` (opcode 8) at
word address 1, with `r0 = v`. -/
def jump_state (op v : Nat) : Machine :=
  { machine_of_words [21, op, 32768, 5] [] with r0 := v, rPC := 2 }

/-- Machine about to run `noop` at word address 0. -/
def noop_state : Machine := machine_of_words [21, 0] []

/-- The program `rmem r0 1; rmem r1 r0; wmem r0 7`: the first instruction
loads the word 32768 (its own first operand) into `r0`, the other two use
`r0` as an address. -/
def wrap_program : List Nat := [15, 32768, 1, 15, 32769, 32768, 16, 32768, 7]

/-- Machine about to run `rmem r1 r0` with `r0 = 32768`. -/
def rmem_wrap_state : Machine :=
  { machine_of_words [15, 32769, 32768] [] with r0 := 32768 }

/-- Machine about to run `wmem r0 7` with `r0 = 32768`. -/
def wmem_wrap_state : Machine :=
  { machine_of_words [16, 32768, 7] [] with r0 := 32768 }

/-- Machine about to run `push 32776`. -/
def push_invalid_state : Machine := machine_of_words [2, 32776, 0] []

/-- Machine about to run `in r0` with nothing left on standard input. -/
def in_eof_state : Machine := machine_of_words [20, 32768, 0] []

/-- The call/return program with the call aimed at the subroutine at word
address 5. -/
def call_program_to_5 : List Nat := [17, 5, 19, 89, 0, 19, 88, 18]

/-- The conditional-jump program of the specification: `set r0 0` at address
0, `jf r0 7` at 3, `out 78` at 6, `halt` at 8, `out 89` at 9, `halt` at 11. -/
def jf_program : List Nat := [1, 32768, 0, 8, 32768, 7, 19, 78, 0, 19, 89, 0]

/-- The conditional-jump program with the jump aimed at the `out 89` at word
address 9. -/
def jf_program_to_9 : List Nat := [1, 32768, 0, 8, 32768, 9, 19, 78, 0, 19, 89, 0]

/-- The echo program of the specification: `in r0; out r0; halt`. -/
def echo_program : List Nat := [20, 32768, 19, 32768, 0]

/-! ## Basic lemmas -/

theorem get_next_pair_of_word_at {s : Machine} {off w : Nat}
    (h : word_at s off = some w) :
    get_next_pair s.memory off = some (off + 2, w) := by
  unfold word_at at h
  unfold get_next_pair at h ⊢
  split_ifs at h ⊢ with hb
  · simp at h; simp [h]
  · simp at h

theorem get_next_pair_lt {m : Memory} {b b' w : Nat}
    (h : get_next_pair m b = some (b', w)) : w < 65536 := by
  unfold get_next_pair at h
  split_ifs at h
  simp at h
  omega

theorem val_load_operand {s : Machine} {w v : Nat} (h : val s w = some v) :
    load_operand s w = some v := by
  unfold val at h
  unfold load_operand is_register
  split_ifs at h with h1 h2
  · have : ¬ (32768 ≤ w) := by omega
    simp [this]; simpa using h
  · have h3 : 32768 ≤ w := by omega
    simp [h3, h2, h]

theorem reg_read_reg_write_same (s : Machine) (r : Reg) (v : Nat) :
    reg_read (reg_write s r v) r = v := by
  cases r <;> rfl

theorem reg_read_reg_write_ne (s : Machine) {r q : Reg} (v : Nat) (h : q ≠ r) :
    reg_read (reg_write s r v) q = reg_read s q := by
  cases r <;> cases q <;> first | rfl | exact absurd rfl h

@[simp] theorem reg_write_rPC (s : Machine) (r : Reg) (v : Nat) :
    (reg_write s r v).rPC = s.rPC := by cases r <;> rfl

@[simp] theorem reg_write_stack (s : Machine) (r : Reg) (v : Nat) :
    (reg_write s r v).stack = s.stack := by cases r <;> rfl

@[simp] theorem reg_write_memory (s : Machine) (r : Reg) (v : Nat) :
    (reg_write s r v).memory = s.memory := by cases r <;> rfl

@[simp] theorem reg_write_input (s : Machine) (r : Reg) (v : Nat) :
    (reg_write s r v).input = s.input := by cases r <;> rfl

@[simp] theorem reg_write_output (s : Machine) (r : Reg) (v : Nat) :
    (reg_write s r v).output = s.output := by cases r <;> rfl

theorem reg_read_with_rPC (s : Machine) (pc : Nat) (r : Reg) :
    reg_read { s with rPC := pc } r = reg_read s r := by
  cases r <;> rfl

theorem to_u16_natCast {n : Nat} (h : n < 65536) : to_u16 (n : Int) = n := by
  unfold to_u16; omega

theorem advance_ne_neg_one (s : Machine) (k : Nat) : advance s k ≠ -1 := by
  unfold advance; omega

theorem xor_bit15 (y : Nat) (hy : y < 2 ^ 15) : (2 ^ 15 + y) ^^^ 2 ^ 15 = y := by
  apply Nat.eq_of_testBit_eq
  intro i
  rw [Nat.testBit_xor]
  rcases Nat.lt_trichotomy i 15 with h | h | h
  · rw [Nat.testBit_two_pow_add_gt h, Nat.testBit_two_pow_of_ne (by omega)]
    simp
  · subst h
    rw [Nat.testBit_two_pow_add_eq, Nat.testBit_two_pow_self, Nat.testBit_lt_two_pow hy]
    rfl
  · have h16 : 2 ^ 16 ≤ 2 ^ i := Nat.pow_le_pow_right (by decide) h
    have hy2 : y < 2 ^ i := by omega
    have hx2 : 2 ^ 15 + y < 2 ^ i := by omega
    rw [Nat.testBit_lt_two_pow hx2, Nat.testBit_lt_two_pow hy2,
      Nat.testBit_two_pow_of_ne (by omega)]
    rfl

theorem not_result_of_le {b : Nat} (h : b ≤ 32767) : not_result b = 32767 - b := by
  unfold not_result
  have h1 : to_u16 (-(b : Int) - 1) = 2 ^ 15 + (32767 - b) := by
    unfold to_u16; omega
  have h2 : (1 : Nat) <<< 15 = 2 ^ 15 := by decide
  rw [h1, h2, xor_bit15 _ (by omega)]
  omega

theorem not_contract_of_le {b : Nat} (h : b ≤ 32767) : not_contract b = 32767 - b := by
  unfold not_contract
  have h1 : (0x7FFF : Nat) = 2 ^ 15 - 1 := by decide
  rw [h1, Nat.and_pow_two_sub_one_eq_mod]
  omega

/-! ## Effect of each instruction -/

@[simp] theorem reg_read_with_stack (s : Machine) (st : Stack) (r : Reg) :
    reg_read { s with stack := st } r = reg_read s r := by cases r <;> rfl

@[simp] theorem reg_read_with_memory (s : Machine) (m : Memory) (r : Reg) :
    reg_read { s with memory := m } r = reg_read s r := by cases r <;> rfl

@[simp] theorem reg_read_with_input (s : Machine) (l : List Nat) (r : Reg) :
    reg_read { s with input := l } r = reg_read s r := by cases r <;> rfl

@[simp] theorem reg_read_with_output (s : Machine) (l : List Nat) (r : Reg) :
    reg_read { s with output := l } r = reg_read s r := by cases r <;> rfl

theorem word_sized_reg_write {s : Machine} (hs : word_sized s) (r : Reg) {v : Nat}
    (hv : v < 65536) : word_sized (reg_write s r v) := by
  refine ⟨fun q => ?_, fun i => ?_⟩
  · by_cases hq : q = r
    · subst hq; rw [reg_read_reg_write_same]; exact hv
    · rw [reg_read_reg_write_ne s v hq]; exact hs.1 q
  · rw [reg_write_stack]; exact hs.2 i

theorem load_operand_lt {s : Machine} (hs : word_sized s) {x v : Nat} (hx : x < 65536)
    (h : load_operand s x = some v) : v < 65536 := by
  unfold load_operand at h
  split_ifs at h
  · simp at h
    obtain ⟨r, -, rfl⟩ := h
    exact hs.1 r
  · simp at h; omega

theorem mem_get_lt {m : Memory} {a v : Nat} (h : mem_get m a = some v) : v < 65536 := by
  unfold mem_get at h
  simp at h
  obtain ⟨b, hb⟩ := h
  exact get_next_pair_lt hb

theorem to_u16_lt (x : Int) : to_u16 x < 65536 := by
  unfold to_u16; omega

theorem char_to_u16_lt (schar : Bool) (x : Int) : char_to_u16 schar x < 65536 := by
  unfold char_to_u16; split_ifs <;> exact to_u16_lt _

theorem not_result_lt (b : Nat) : not_result b < 65536 := by
  unfold not_result; omega

theorem and_lt_word {x y : Nat} (hy : y < 65536) : x &&& y < 65536 :=
  @Nat.and_lt_two_pow x y 16 hy

theorem or_lt_word {x y : Nat} (hx : x < 65536) (hy : y < 65536) : x ||| y < 65536 :=
  @Nat.or_lt_two_pow x y 16 hx hy

theorem stack_push_data_lt {st st' : Stack} {v : Nat} (h : stack_push st v = some st')
    (hd : ∀ i, st.data i < 65536) : ∀ i, st'.data i < 65536 := by
  unfold stack_push at h
  split_ifs at h
  simp at h
  subst h
  intro i
  show (if i = st.pointer then v % 65536 else st.data i) < 65536
  split_ifs
  · omega
  · exact hd i

theorem stack_pop_data {st st' : Stack} {v : Nat} (h : stack_pop st = some (v, st')) :
    st'.data = st.data ∧ v = st.data (st.pointer - 1) := by
  unfold stack_pop at h
  split_ifs at h
  simp at h
  obtain ⟨rfl, rfl⟩ := h
  exact ⟨rfl, rfl⟩

theorem instruction_halt_effect {s s' : Machine} {buf : Nat} {ret : Int}
    (h : instruction_halt s buf = some (s', ret)) : s' = s ∧ ret = -1 := by
  simp [instruction_halt] at h
  exact ⟨h.1.symm, h.2.symm⟩

theorem instruction_noop_effect {s s' : Machine} {buf : Nat} {ret : Int}
    (h : instruction_noop s buf = some (s', ret)) : s' = s ∧ ret = advance s 0 := by
  simp [instruction_noop] at h
  exact ⟨h.1.symm, h.2.symm⟩

theorem instruction_set_effect {s s' : Machine} {buf : Nat} {ret : Int}
    (h : instruction_set s buf = some (s', ret)) :
    (word_sized s → word_sized s') ∧ s'.rPC = s.rPC ∧ ret = advance s 4 := by
  simp [instruction_set, Option.bind_eq_some, store_reg] at h
  obtain ⟨b1, a, h1, b2, b, h2, vb, hvb, r, hr, rfl, rfl⟩ := h
  exact ⟨fun hs => word_sized_reg_write hs r (load_operand_lt hs (get_next_pair_lt h2) hvb),
    by simp, by simp [advance]⟩

theorem instruction_push_effect {s s' : Machine} {buf : Nat} {ret : Int}
    (h : instruction_push s buf = some (s', ret)) :
    (word_sized s → word_sized s') ∧ s'.rPC = s.rPC ∧ ret = advance s 2 := by
  simp [instruction_push, Option.bind_eq_some] at h
  obtain ⟨b1, a, h1, va, hva, st, hst, rfl, rfl⟩ := h
  exact ⟨fun hs => ⟨fun r => by simpa using hs.1 r, stack_push_data_lt hst hs.2⟩,
    rfl, by simp [advance]⟩

theorem instruction_pop_effect {s s' : Machine} {buf : Nat} {ret : Int}
    (h : instruction_pop s buf = some (s', ret)) :
    (word_sized s → word_sized s') ∧ s'.rPC = s.rPC ∧ ret = advance s 2 := by
  simp [instruction_pop, Option.bind_eq_some, store_reg] at h
  obtain ⟨b1, a, h1, v, st, hst, r, hr, rfl, rfl⟩ := h
  obtain ⟨hd, hv⟩ := stack_pop_data hst
  refine ⟨fun hs => word_sized_reg_write ⟨fun r => by simpa using hs.1 r, ?_⟩ r ?_,
    by simp, by simp [advance]⟩
  · intro i; show st.data i < 65536; rw [hd]; exact hs.2 i
  · rw [hv]; exact hs.2 _

theorem instruction_eq_effect {s s' : Machine} {buf : Nat} {ret : Int}
    (h : instruction_eq s buf = some (s', ret)) :
    (word_sized s → word_sized s') ∧ s'.rPC = s.rPC ∧ ret = advance s 6 := by
  simp [instruction_eq, Option.bind_eq_some, store_reg] at h
  obtain ⟨b1, a, h1, b2, b, h2, vb, hvb, b3, c, h3, vc, hvc, r, hr, rfl, rfl⟩ := h
  exact ⟨fun hs => word_sized_reg_write hs r (by split_ifs <;> omega), by simp,
    by simp [advance]⟩

theorem instruction_gt_effect {s s' : Machine} {buf : Nat} {ret : Int}
    (h : instruction_gt s buf = some (s', ret)) :
    (word_sized s → word_sized s') ∧ s'.rPC = s.rPC ∧ ret = advance s 6 := by
  simp [instruction_gt, Option.bind_eq_some, store_reg] at h
  obtain ⟨b1, a, h1, b2, b, h2, vb, hvb, b3, c, h3, vc, hvc, r, hr, rfl, rfl⟩ := h
  exact ⟨fun hs => word_sized_reg_write hs r (by split_ifs <;> omega), by simp,
    by simp [advance]⟩

theorem instruction_jmp_effect {s s' : Machine} {buf : Nat} {ret : Int}
    (h : instruction_jmp s buf = some (s', ret)) :
    s' = s ∧ ∃ x : Nat, ret = ((x * 2 : Nat) : Int) := by
  simp [instruction_jmp, Option.bind_eq_some] at h
  obtain ⟨b1, a, h1, va, hva, rfl, rfl⟩ := h
  exact ⟨rfl, va, by simp⟩

theorem instruction_jt_effect {s s' : Machine} {buf : Nat} {ret : Int}
    (h : instruction_jt s buf = some (s', ret)) :
    s' = s ∧ (ret = advance s 4 ∨ ∃ x : Nat, ret = ((x * 2 : Nat) : Int)) := by
  simp [instruction_jt, Option.bind_eq_some] at h
  obtain ⟨b1, a, h1, va, hva, b2, b, h2, vb, hvb, h⟩ := h
  split_ifs at h with h0
  · simp at h; obtain ⟨rfl, rfl⟩ := h; exact ⟨rfl, Or.inl rfl⟩
  · simp at h; obtain ⟨rfl, rfl⟩ := h; exact ⟨rfl, Or.inr ⟨vb, by simp⟩⟩

theorem instruction_jf_effect {s s' : Machine} {buf : Nat} {ret : Int}
    (h : instruction_jf s buf = some (s', ret)) :
    s' = s ∧ (ret = advance s 4 ∨ ∃ x : Nat, ret = ((x * 2 : Nat) : Int)) := by
  simp [instruction_jf, Option.bind_eq_some] at h
  obtain ⟨b1, a, h1, va, hva, b2, b, h2, vb, hvb, h⟩ := h
  split_ifs at h with h0
  · simp at h; obtain ⟨rfl, rfl⟩ := h; exact ⟨rfl, Or.inr ⟨vb, by simp⟩⟩
  · simp at h; obtain ⟨rfl, rfl⟩ := h; exact ⟨rfl, Or.inl rfl⟩

theorem instruction_add_effect {s s' : Machine} {buf : Nat} {ret : Int}
    (h : instruction_add s buf = some (s', ret)) :
    (word_sized s → word_sized s') ∧ s'.rPC = s.rPC ∧ ret = advance s 6 := by
  simp [instruction_add, Option.bind_eq_some, store_reg] at h
  obtain ⟨b1, a, h1, b2, b, h2, vb, hvb, b3, c, h3, vc, hvc, r, hr, rfl, rfl⟩ := h
  exact ⟨fun hs => word_sized_reg_write hs r (by omega), by simp, by simp [advance]⟩

theorem instruction_mult_effect {s s' : Machine} {buf : Nat} {ret : Int}
    (h : instruction_mult s buf = some (s', ret)) :
    (word_sized s → word_sized s') ∧ s'.rPC = s.rPC ∧ ret = advance s 6 := by
  simp [instruction_mult, Option.bind_eq_some, store_reg] at h
  obtain ⟨b1, a, h1, b2, b, h2, vb, hvb, b3, c, h3, vc, hvc, -, r, hr, rfl, rfl⟩ := h
  exact ⟨fun hs => word_sized_reg_write hs r (by omega), by simp, by simp [advance]⟩

theorem instruction_mod_effect {s s' : Machine} {buf : Nat} {ret : Int}
    (h : instruction_mod s buf = some (s', ret)) :
    (word_sized s → word_sized s') ∧ s'.rPC = s.rPC ∧ ret = advance s 6 := by
  simp [instruction_mod, Option.bind_eq_some, store_reg] at h
  obtain ⟨b1, a, h1, b2, b, h2, vb, hvb, b3, c, h3, vc, hvc, hc, r, hr, rfl, rfl⟩ := h
  refine ⟨fun hs => word_sized_reg_write hs r ?_, by simp, by simp [advance]⟩
  exact lt_of_le_of_lt (Nat.mod_le _ _) (load_operand_lt hs (get_next_pair_lt h2) hvb)

theorem instruction_and_effect {s s' : Machine} {buf : Nat} {ret : Int}
    (h : instruction_and s buf = some (s', ret)) :
    (word_sized s → word_sized s') ∧ s'.rPC = s.rPC ∧ ret = advance s 6 := by
  simp [instruction_and, Option.bind_eq_some, store_reg] at h
  obtain ⟨b1, a, h1, b2, b, h2, vb, hvb, b3, c, h3, vc, hvc, r, hr, rfl, rfl⟩ := h
  exact ⟨fun hs => word_sized_reg_write hs r
      (and_lt_word (load_operand_lt hs (get_next_pair_lt h3) hvc)),
    by simp, by simp [advance]⟩

theorem instruction_or_effect {s s' : Machine} {buf : Nat} {ret : Int}
    (h : instruction_or s buf = some (s', ret)) :
    (word_sized s → word_sized s') ∧ s'.rPC = s.rPC ∧ ret = advance s 6 := by
  simp [instruction_or, Option.bind_eq_some, store_reg] at h
  obtain ⟨b1, a, h1, b2, b, h2, vb, hvb, b3, c, h3, vc, hvc, r, hr, rfl, rfl⟩ := h
  exact ⟨fun hs => word_sized_reg_write hs r
      (or_lt_word (load_operand_lt hs (get_next_pair_lt h2) hvb)
        (load_operand_lt hs (get_next_pair_lt h3) hvc)),
    by simp, by simp [advance]⟩

theorem instruction_not_effect {s s' : Machine} {buf : Nat} {ret : Int}
    (h : instruction_not s buf = some (s', ret)) :
    (word_sized s → word_sized s') ∧ s'.rPC = s.rPC ∧ ret = advance s 4 := by
  simp [instruction_not, Option.bind_eq_some, store_reg] at h
  obtain ⟨b1, a, h1, b2, b, h2, vb, hvb, r, hr, rfl, rfl⟩ := h
  exact ⟨fun hs => word_sized_reg_write hs r (not_result_lt vb), by simp, by simp [advance]⟩

theorem instruction_rmem_effect {s s' : Machine} {buf : Nat} {ret : Int}
    (h : instruction_rmem s buf = some (s', ret)) :
    (word_sized s → word_sized s') ∧ s'.rPC = s.rPC ∧ ret = advance s 4 := by
  simp [instruction_rmem, Option.bind_eq_some, store_reg] at h
  obtain ⟨b1, a, h1, b2, b, h2, vb, hvb, v, hv, r, hr, rfl, rfl⟩ := h
  exact ⟨fun hs => word_sized_reg_write hs r (mem_get_lt hv), by simp, by simp [advance]⟩

theorem instruction_wmem_effect {s s' : Machine} {buf : Nat} {ret : Int}
    (h : instruction_wmem s buf = some (s', ret)) :
    (word_sized s → word_sized s') ∧ s'.rPC = s.rPC ∧ ret = advance s 4 := by
  simp [instruction_wmem, Option.bind_eq_some] at h
  obtain ⟨b1, a, h1, va, hva, b2, b, h2, vb, hvb, m, hm, rfl, rfl⟩ := h
  exact ⟨fun hs => ⟨fun r => by simpa using hs.1 r, hs.2⟩, rfl, by simp [advance]⟩

theorem instruction_call_effect {s s' : Machine} {buf : Nat} {ret : Int}
    (h : instruction_call s buf = some (s', ret)) :
    (word_sized s → word_sized s') ∧ s'.rPC = s.rPC ∧
      ∃ x : Nat, ret = ((x * 2 : Nat) : Int) := by
  simp [instruction_call, Option.bind_eq_some] at h
  obtain ⟨b1, a, h1, va, hva, st, hst, rfl, rfl⟩ := h
  exact ⟨fun hs => ⟨fun r => by simpa using hs.1 r, stack_push_data_lt hst hs.2⟩,
    rfl, va, by simp⟩

theorem instruction_ret_effect {s s' : Machine} {buf : Nat} {ret : Int}
    (h : instruction_ret s buf = some (s', ret)) :
    (word_sized s → word_sized s') ∧ s'.rPC = s.rPC ∧
      ∃ x : Nat, ret = ((x * 2 : Nat) : Int) := by
  simp [instruction_ret, Option.bind_eq_some] at h
  obtain ⟨v, st, hst, rfl, rfl⟩ := h
  obtain ⟨hd, -⟩ := stack_pop_data hst
  refine ⟨fun hs => ⟨fun r => by simpa using hs.1 r, ?_⟩, rfl, v, by simp⟩
  intro i; show st.data i < 65536; rw [hd]; exact hs.2 i

theorem instruction_out_effect {s s' : Machine} {buf : Nat} {ret : Int}
    (h : instruction_out s buf = some (s', ret)) :
    (word_sized s → word_sized s') ∧ s'.rPC = s.rPC ∧ ret = advance s 2 := by
  simp [instruction_out, Option.bind_eq_some] at h
  obtain ⟨b1, a, h1, va, hva, rfl, rfl⟩ := h
  exact ⟨fun hs => ⟨fun r => by simpa using hs.1 r, hs.2⟩, rfl, by simp [advance]⟩

theorem getchar_effect (s : Machine) :
    (∀ r, reg_read (getchar s).2 r = reg_read s r) ∧ (getchar s).2.stack = s.stack ∧
      (getchar s).2.rPC = s.rPC ∧ (getchar s).2.memory = s.memory ∧
      (getchar s).2.output = s.output := by
  unfold getchar
  cases s.input <;> simp

theorem instruction_in_effect {schar : Bool} {s s' : Machine} {buf : Nat} {ret : Int}
    (h : instruction_in schar s buf = some (s', ret)) :
    (word_sized s → word_sized s') ∧ s'.rPC = s.rPC ∧ ret = advance s 2 := by
  simp [instruction_in, Option.bind_eq_some, store_reg] at h
  obtain ⟨b1, a, h1, r, hr, rfl, rfl⟩ := h
  obtain ⟨hg1, hg2, hg3, -, -⟩ := getchar_effect s
  refine ⟨fun hs => word_sized_reg_write ⟨fun q => ?_, fun i => ?_⟩ r (char_to_u16_lt _ _),
    by simp [hg3], by simp [advance, hg3]⟩
  · rw [hg1]; exact hs.1 q
  · rw [hg2]; exact hs.2 i

theorem word_sized_with_rPC {s : Machine} (pc : Nat) (hs : word_sized s) :
    word_sized { s with rPC := pc } :=
  ⟨fun r => by rw [reg_read_with_rPC]; exact hs.1 r, hs.2⟩

theorem operate_effect {schar : Bool} {s s' : Machine} {op buf : Nat} {ret : Int}
    (h : operate schar s op buf = some (s', ret)) :
    (word_sized s → word_sized s') ∧ s'.rPC = s.rPC ∧ op ≤ 21 ∧
      (if op = 0 then ret = -1
       else if op = 6 ∨ op = 17 ∨ op = 18 then ∃ x : Nat, ret = ((x * 2 : Nat) : Int)
       else if op = 7 ∨ op = 8 then
         ret = advance s 4 ∨ ∃ x : Nat, ret = ((x * 2 : Nat) : Int)
       else ret = advance s (2 * isa_operands op)) := by
  by_cases hop : op ≤ 21
  · interval_cases op <;> simp [operate, get_instruction] at h
    · obtain ⟨rfl, rfl⟩ := instruction_halt_effect h; simp
    · simpa [isa_operands] using instruction_set_effect h
    · simpa [isa_operands] using instruction_push_effect h
    · simpa [isa_operands] using instruction_pop_effect h
    · simpa [isa_operands] using instruction_eq_effect h
    · simpa [isa_operands] using instruction_gt_effect h
    · obtain ⟨rfl, hx⟩ := instruction_jmp_effect h; simpa using hx
    · obtain ⟨rfl, hx⟩ := instruction_jt_effect h; simpa using hx
    · obtain ⟨rfl, hx⟩ := instruction_jf_effect h; simpa using hx
    · simpa [isa_operands] using instruction_add_effect h
    · simpa [isa_operands] using instruction_mult_effect h
    · simpa [isa_operands] using instruction_mod_effect h
    · simpa [isa_operands] using instruction_and_effect h
    · simpa [isa_operands] using instruction_or_effect h
    · simpa [isa_operands] using instruction_not_effect h
    · simpa [isa_operands] using instruction_rmem_effect h
    · simpa [isa_operands] using instruction_wmem_effect h
    · simpa using instruction_call_effect h
    · simpa using instruction_ret_effect h
    · simpa [isa_operands] using instruction_out_effect h
    · simpa [isa_operands] using instruction_in_effect h
    · obtain ⟨rfl, hx⟩ := instruction_noop_effect h; simpa [isa_operands] using hx
  · exfalso
    have h0 : get_instruction schar op = none := by
      unfold get_instruction
      repeat (rw [if_neg (by omega)])
    simp [operate, h0] at h

theorem parse_iter_word_sized {schar : Bool} {s s' : Machine} {st : Status}
    (h : parse_iter schar s = some (st, s')) (hs : word_sized s) : word_sized s' := by
  simp [parse_iter, Option.bind_eq_some] at h
  obtain ⟨b, op, -, t, ret, hop, h⟩ := h
  have ht := (operate_effect hop).1 hs
  split_ifs at h
  · simp at h; obtain ⟨-, rfl⟩ := h; exact ht
  · simp at h; obtain ⟨-, rfl⟩ := h; exact word_sized_with_rPC _ ht

theorem boot_word_sized {file input : List Nat} {s : Machine}
    (h : boot file input = some s) : word_sized s := by
  simp [boot] at h
  obtain ⟨m, -, rfl⟩ := h
  exact ⟨fun r => by cases r <;> simp [reg_read], fun i => by simp [stack_init]⟩

theorem reachable_word_sized {schar : Bool} {file input : List Nat} {s : Machine}
    (h : Reachable schar file input s) : word_sized s := by
  induction h with
  | start hb => exact boot_word_sized hb
  | iter _ hstep ih => exact parse_iter_word_sized hstep ih

/-! ## Arithmetic instructions -/

/-- C1: when the instruction at the program counter is `add a b c`, `a`
names a register and `b`, `c` are literals or register references, executing
it writes `(val(b) + val(c)) mod 32768` to register `a`, the two values being
those of the state before the write (so `a` may name the same register as `b`
or `c`); 32767 plus 1 stores 0 and 32767 plus 2 stores 1.  The bound
`val ≤ 32767` of the claim is not needed. -/
theorem add_stores_sum_mod (schar : Bool) (s : Machine) (a b c vb vc : Nat) (ra : Reg)
    (hop : word_at s s.rPC = some 9)
    (ha : word_at s (s.rPC + 2) = some a)
    (hb : word_at s (s.rPC + 4) = some b)
    (hc : word_at s (s.rPC + 6) = some c)
    (hra : get_register a = some ra)
    (hvb : val s b = some vb) (hvc : val s c = some vc) :
    ∃ s', parse_iter schar s = some (.running, s') ∧
      reg_read s' ra = (vb + vc) % 32768 ∧
      (vb = 32767 → vc = 1 → reg_read s' ra = 0) ∧
      (vb = 32767 → vc = 2 → reg_read s' ra = 1) := by
  have hrun : parse_iter schar s = some (.running,
      { reg_write s ra ((vb + vc) % 32768) with rPC := to_u16 (advance s 6) }) := by
    simp [parse_iter, operate, get_instruction, instruction_add, store_reg,
      get_next_pair_of_word_at hop, get_next_pair_of_word_at ha,
      get_next_pair_of_word_at hb, get_next_pair_of_word_at hc,
      val_load_operand hvb, val_load_operand hvc, hra, advance]
    omega
  refine ⟨_, hrun, ?_, ?_, ?_⟩
  · rw [reg_read_with_rPC, reg_read_reg_write_same]
  · intro h1 h2
    rw [reg_read_with_rPC, reg_read_reg_write_same, h1, h2]
  · intro h1 h2
    rw [reg_read_with_rPC, reg_read_reg_write_same, h1, h2]

/-- Witness for C1: `add r0 r0 1` and `add r0 r0 2` with `r0 = 32767`, the
destination being also the first source. -/
theorem add_stores_sum_mod_witness :
    (∃ s', parse_iter true (add_state 1) = some (.running, s') ∧
      reg_read s' .r0 = (32767 + 1) % 32768 ∧
      (32767 = 32767 → 1 = 1 → reg_read s' .r0 = 0) ∧
      (32767 = 32767 → 1 = 2 → reg_read s' .r0 = 1)) ∧
    (∃ s', parse_iter true (add_state 2) = some (.running, s') ∧
      reg_read s' .r0 = (32767 + 2) % 32768 ∧
      (32767 = 32767 → 2 = 1 → reg_read s' .r0 = 0) ∧
      (32767 = 32767 → 2 = 2 → reg_read s' .r0 = 1)) :=
  ⟨add_stores_sum_mod true (add_state 1) 32768 32768 1 32767 1 .r0
    (by decide) (by decide) (by decide) (by decide) (by decide) (by decide) (by decide),
   add_stores_sum_mod true (add_state 2) 32768 32768 2 32767 2 .r0
    (by decide) (by decide) (by decide) (by decide) (by decide) (by decide) (by decide)⟩

/-- C2: when the instruction at the program counter is `mult a b c`, `a`
names a register and `b`, `c` resolve to values in 0..32767, the product
formed in `int` stays below 2^31 and executing the instruction writes
`(val(b) * val(c)) mod 32768` to register `a`; 32767 times 32767 stores 1. -/
theorem mult_stores_product_mod (schar : Bool) (s : Machine) (a b c vb vc : Nat) (ra : Reg)
    (hop : word_at s s.rPC = some 10)
    (ha : word_at s (s.rPC + 2) = some a)
    (hb : word_at s (s.rPC + 4) = some b)
    (hc : word_at s (s.rPC + 6) = some c)
    (hra : get_register a = some ra)
    (hvb : val s b = some vb) (hvc : val s c = some vc)
    (hbr : vb ≤ 32767) (hcr : vc ≤ 32767) :
    vb * vc < 2 ^ 31 ∧
    ∃ s', parse_iter schar s = some (.running, s') ∧
      reg_read s' ra = (vb * vc) % 32768 ∧
      (vb = 32767 → vc = 32767 → reg_read s' ra = 1) := by
  have hprod : vb * vc < 2 ^ 31 :=
    calc vb * vc ≤ 32767 * 32767 := Nat.mul_le_mul hbr hcr
      _ < 2 ^ 31 := by decide
  have hrun : parse_iter schar s = some (.running,
      { reg_write s ra ((vb * vc) % 32768) with rPC := to_u16 (advance s 6) }) := by
    have hprod2 : vb * vc < 2147483648 := hprod
    simp [parse_iter, operate, get_instruction, instruction_mult, store_reg,
      get_next_pair_of_word_at hop, get_next_pair_of_word_at ha,
      get_next_pair_of_word_at hb, get_next_pair_of_word_at hc,
      val_load_operand hvb, val_load_operand hvc, hra, advance, hprod2]
    omega
  refine ⟨hprod, _, hrun, ?_, ?_⟩
  · rw [reg_read_with_rPC, reg_read_reg_write_same]
  · intro h1 h2
    rw [reg_read_with_rPC, reg_read_reg_write_same, h1, h2]

/-- Witness for C2: `mult r0 r0 32767` with `r0 = 32767`. -/
theorem mult_stores_product_mod_witness :
    32767 * 32767 < 2 ^ 31 ∧
    ∃ s', parse_iter true mult_state = some (.running, s') ∧
      reg_read s' .r0 = (32767 * 32767) % 32768 ∧
      (32767 = 32767 → 32767 = 32767 → reg_read s' .r0 = 1) :=
  mult_stores_product_mod true mult_state 32768 32768 32767 32767 32767 .r0
    (by decide) (by decide) (by decide) (by decide) (by decide) (by decide) (by decide)
    (by decide) (by decide)

/-! ## The `not` instruction -/

/-- C3 fails for an operand value with bit 15 set: the program
`rmem r1 1; not r0 r1` loads the word 32769 into `r1`, and `not` then leaves
65534 in `r0`, where the contract `(~val(b)) & 0x7FFF` gives 32766. -/
theorem not_flips_bit15_counterexample :
    ∃ s1 s2, parse_iter true (machine_of_words [15, 32769, 1, 14, 32768, 32769] []) =
        some (.running, s1) ∧
      parse_iter true s1 = some (.running, s2) ∧
      val s1 32769 = some 32769 ∧
      reg_read s2 .r0 = 65534 ∧
      not_contract 32769 = 32766 := by
  refine ⟨_, _, rfl, rfl, ?_, ?_, ?_⟩ <;> decide

/-- C3, amended: when the instruction at the program counter is `not a b`,
`a` names a register and `val(b)` is in 0..32767, executing it writes
`(~val(b)) & 0x7FFF` to register `a`; `not 0` stores 32767 and `not 32767`
stores 0. -/
theorem not_stores_complement (schar : Bool) (s : Machine) (a b vb : Nat) (ra : Reg)
    (hop : word_at s s.rPC = some 14)
    (ha : word_at s (s.rPC + 2) = some a)
    (hb : word_at s (s.rPC + 4) = some b)
    (hra : get_register a = some ra)
    (hvb : val s b = some vb)
    (hbr : vb ≤ 32767) :
    ∃ s', parse_iter schar s = some (.running, s') ∧
      reg_read s' ra = not_contract vb ∧
      (vb = 0 → reg_read s' ra = 32767) ∧
      (vb = 32767 → reg_read s' ra = 0) := by
  have hrun : parse_iter schar s = some (.running,
      { reg_write s ra (not_result vb) with rPC := to_u16 (advance s 4) }) := by
    simp [parse_iter, operate, get_instruction, instruction_not, store_reg,
      get_next_pair_of_word_at hop, get_next_pair_of_word_at ha,
      get_next_pair_of_word_at hb, val_load_operand hvb, hra, advance]
    omega
  refine ⟨_, hrun, ?_, ?_, ?_⟩
  · rw [reg_read_with_rPC, reg_read_reg_write_same, not_result_of_le hbr,
      not_contract_of_le hbr]
  · intro h1
    rw [reg_read_with_rPC, reg_read_reg_write_same, not_result_of_le hbr, h1]
  · intro h1
    rw [reg_read_with_rPC, reg_read_reg_write_same, not_result_of_le hbr, h1]

/-- Witness for C3: `not r0 r1` with `r1 = 0` and with `r1 = 32767`. -/
theorem not_stores_complement_witness :
    (∃ s', parse_iter true (not_state 0) = some (.running, s') ∧
      reg_read s' .r0 = not_contract 0 ∧
      (0 = 0 → reg_read s' .r0 = 32767) ∧
      (0 = 32767 → reg_read s' .r0 = 0)) ∧
    (∃ s', parse_iter true (not_state 32767) = some (.running, s') ∧
      reg_read s' .r0 = not_contract 32767 ∧
      (32767 = 0 → reg_read s' .r0 = 32767) ∧
      (32767 = 32767 → reg_read s' .r0 = 0)) :=
  ⟨not_stores_complement true (not_state 0) 32768 32769 0 .r0
    (by decide) (by decide) (by decide) (by decide) (by decide) (by decide),
   not_stores_complement true (not_state 32767) 32768 32769 32767 .r0
    (by decide) (by decide) (by decide) (by decide) (by decide) (by decide)⟩

/-! ## Register contents in reachable states -/

/-- C4 fails: after the single instruction `rmem r0 1` of the image
`15, 32768, 1`, register `r0` holds the word 32768 read from address 1. -/
theorem registers_exceed_15_bits_counterexample :
    ∃ s, Reachable true (image_of_words [15, 32768, 1]) [] s ∧
      reg_read s .r0 = 32768 ∧ ¬ reg_read s .r0 ≤ 32767 := by
  refine ⟨_, Reachable.iter (Reachable.start rfl) rfl, ?_, ?_⟩ <;> decide

/-- C4, amended: in every state the fetch loop reaches from the booted
machine, each of the eight registers holds a 16-bit word, a value in
0..65535. -/
theorem reachable_registers_are_words (schar : Bool) (file input : List Nat) (s : Machine)
    (h : Reachable schar file input s) (r : Reg) : reg_read s r ≤ 65535 := by
  have := (reachable_word_sized h).1 r
  omega

/-- Witness for C4: the state after `rmem r0 1` in the image `15, 32768, 1`. -/
theorem reachable_registers_are_words_witness :
    reg_read { machine_of_words [15, 32768, 1] [] with r0 := 32768, rPC := 6 } .r0
      ≤ 65535 :=
  reachable_registers_are_words true (image_of_words [15, 32768, 1]) [] _
    (Reachable.iter (Reachable.start rfl) rfl) .r0

/-! ## Call and return -/

theorem word_at_bound {s : Machine} {off w : Nat} (h : word_at s off = some w) :
    off + 1 < 65534 := by
  unfold word_at get_next_pair at h
  split_ifs at h with hb
  · exact hb
  · simp at h

/-- C5, amended: let the word PC be `p` with `p + 2 ≤ 32767`, the
instruction there `call a` with `val(a) ≤ 32767`, and the stack hold fewer
than 32767 words.  Executing the call pushes `p + 2` and sets the PC to
`val(a)`, the words below the top staying as they were; and executing `ret`
in any state `t` whose stack is the stack before the call with `p + 2` on top
sets the PC to `p + 2` and leaves the stack as it was before the call. -/
theorem call_then_ret_returns (schar : Bool) (s t : Machine) (p a va : Nat)
    (hpc : s.rPC = 2 * p) (hp : p + 2 ≤ 32767)
    (hop : word_at s s.rPC = some 17)
    (ha : word_at s (s.rPC + 2) = some a)
    (hva : val s a = some va) (hvr : va ≤ 32767)
    (hroom : s.stack.pointer < stack_slots)
    (htop : t.stack.pointer = s.stack.pointer + 1)
    (htopv : t.stack.data s.stack.pointer = p + 2)
    (hbelow : ∀ i, i < s.stack.pointer → t.stack.data i = s.stack.data i)
    (hret : word_at t t.rPC = some 18) :
    (∃ s1, parse_iter schar s = some (.running, s1) ∧ s1.rPC = 2 * va ∧
      s1.stack.pointer = s.stack.pointer + 1 ∧
      s1.stack.data s.stack.pointer = p + 2 ∧
      ∀ i, i < s.stack.pointer → s1.stack.data i = s.stack.data i) ∧
    (∃ t1, parse_iter schar t = some (.running, t1) ∧ t1.rPC = 2 * (p + 2) ∧
      t1.stack.pointer = s.stack.pointer ∧
      ∀ i, i < s.stack.pointer → t1.stack.data i = s.stack.data i) := by
  have hslots : stack_slots = 32767 := by decide
  constructor
  · have hrun : parse_iter schar s = some (.running,
        { s with
          stack := { data := fun i => if i = s.stack.pointer then (s.rPC + 2 + 2) / 2 % 65536
                                      else s.stack.data i,
                     pointer := (s.stack.pointer + 1) % 65536 },
          rPC := to_u16 ((va * 2 : Nat) : Int) }) := by
      simp [parse_iter, operate, get_instruction, instruction_call, stack_push, hroom,
        get_next_pair_of_word_at hop, get_next_pair_of_word_at ha, val_load_operand hva]
      omega
    refine ⟨_, hrun, ?_, ?_, ?_, ?_⟩
    · show to_u16 ((va * 2 : Nat) : Int) = 2 * va
      rw [to_u16_natCast (by omega)]; omega
    · show (s.stack.pointer + 1) % 65536 = s.stack.pointer + 1
      omega
    · show (if s.stack.pointer = s.stack.pointer then (s.rPC + 2 + 2) / 2 % 65536
          else s.stack.data s.stack.pointer) = p + 2
      rw [if_pos rfl]; omega
    · intro i hi
      show (if i = s.stack.pointer then (s.rPC + 2 + 2) / 2 % 65536 else s.stack.data i) = _
      rw [if_neg (by omega)]
  · have hpop : stack_pop t.stack = some (p + 2,
        { t.stack with pointer := to_u16 ((t.stack.pointer : Int) - 1) }) := by
      unfold stack_pop
      rw [if_pos (by omega), htop]
      simp [htopv]
    have hrun : parse_iter schar t = some (.running,
        { t with
          stack := { t.stack with pointer := to_u16 ((t.stack.pointer : Int) - 1) },
          rPC := to_u16 (((p + 2) * 2 : Nat) : Int) }) := by
      simp [parse_iter, operate, get_instruction, instruction_ret, hpop,
        get_next_pair_of_word_at hret]
      omega
    refine ⟨_, hrun, ?_, ?_, ?_⟩
    · show to_u16 (((p + 2) * 2 : Nat) : Int) = 2 * (p + 2)
      rw [to_u16_natCast (by omega)]; omega
    · show to_u16 ((t.stack.pointer : Int) - 1) = s.stack.pointer
      rw [htop]; unfold to_u16; omega
    · intro i hi
      exact hbelow i hi

/-- Witness for C5: `call 4` at address 0 of the call/return program of the
specification, and its `ret` at address 7. -/
theorem call_then_ret_returns_witness :
    (∃ s1, parse_iter true (call_state 0) = some (.running, s1) ∧ s1.rPC = 2 * 4 ∧
      s1.stack.pointer = (call_state 0).stack.pointer + 1 ∧
      s1.stack.data (call_state 0).stack.pointer = 0 + 2 ∧
      ∀ i, i < (call_state 0).stack.pointer →
        s1.stack.data i = (call_state 0).stack.data i) ∧
    (∃ t1, parse_iter true ret_state = some (.running, t1) ∧ t1.rPC = 2 * (0 + 2) ∧
      t1.stack.pointer = (call_state 0).stack.pointer ∧
      ∀ i, i < (call_state 0).stack.pointer →
        t1.stack.data i = (call_state 0).stack.data i) :=
  call_then_ret_returns true (call_state 0) ret_state 0 4 4
    (by decide) (by decide) (by decide) (by decide) (by decide) (by decide) (by decide)
    (by decide) (by decide) (fun i hi => absurd hi (Nat.not_lt_zero i)) (by decide)

/-- C5 fails in two ways.  After `rmem r0 1` has loaded the word 32768 into
`r0`, `call r0` sets the byte offset `rPC` to `65536 mod 65536 = 0`, not to
word address `val(a) = 32768`.  And with 32767 words on the stack the push
made by `call` lies outside the stack block. -/
theorem call_counterexample :
    (∃ s1 s2, parse_iter true (machine_of_words [15, 32768, 1, 17, 32768] []) =
        some (.running, s1) ∧
      word_at s1 s1.rPC = some 17 ∧ word_at s1 (s1.rPC + 2) = some 32768 ∧
      val s1 32768 = some 32768 ∧
      parse_iter true s1 = some (.running, s2) ∧ s2.rPC = 0 ∧ s2.rPC ≠ 2 * 32768) ∧
    (word_at (call_state 32767) (call_state 32767).rPC = some 17 ∧
      (call_state 32767).stack.pointer = 32767 ∧
      parse_iter true (call_state 32767) = none) := by
  refine ⟨⟨_, _, rfl, ?_, ?_, ?_, rfl, ?_, ?_⟩, ?_, ?_, rfl⟩ <;> decide

/-! ## Push and pop -/

/-- C6, amended: when the stack holds fewer than 32767 words, `x` is a
literal or a register reference whose value is a 16-bit word and `r` names a
register, executing `push x` and then `pop r` leaves register `r` equal to
the value `val(x)` had before the push, and leaves the stack depth and every
stack element below the top as they were before the push. -/
theorem push_pop_round_trip (schar : Bool) (s : Machine) (x r vx : Nat) (rr : Reg)
    (h0 : word_at s s.rPC = some 2)
    (h1 : word_at s (s.rPC + 2) = some x)
    (h2 : word_at s (s.rPC + 4) = some 3)
    (h3 : word_at s (s.rPC + 6) = some r)
    (hx : val s x = some vx) (hw : vx ≤ 65535)
    (hr : get_register r = some rr)
    (hroom : s.stack.pointer < stack_slots) :
    ∃ s1 s2, parse_iter schar s = some (.running, s1) ∧
      parse_iter schar s1 = some (.running, s2) ∧
      reg_read s2 rr = vx ∧
      s2.stack.pointer = s.stack.pointer ∧
      ∀ i, i < s.stack.pointer → s2.stack.data i = s.stack.data i := by
  have hslots : stack_slots = 32767 := by decide
  have hb := word_at_bound h3
  have hrun1 : parse_iter schar s = some (.running,
      { s with
        stack := { data := fun i => if i = s.stack.pointer then vx % 65536
                                    else s.stack.data i,
                   pointer := (s.stack.pointer + 1) % 65536 },
        rPC := s.rPC + 4 }) := by
    have hu : to_u16 ((s.rPC : Int) + 2 + 2) = s.rPC + 4 := by unfold to_u16; omega
    simp [parse_iter, operate, get_instruction, instruction_push, stack_push, hroom,
      get_next_pair_of_word_at h0, get_next_pair_of_word_at h1, val_load_operand hx,
      advance, hu]
    omega
  have hpop : stack_pop { data := fun i => if i = s.stack.pointer then vx % 65536
                                    else s.stack.data i,
                          pointer := (s.stack.pointer + 1) % 65536 } =
      some (vx, { data := fun i => if i = s.stack.pointer then vx % 65536
                                    else s.stack.data i,
                  pointer := s.stack.pointer }) := by
    have hp1 : (s.stack.pointer + 1) % 65536 = s.stack.pointer + 1 := by omega
    have hp2 : to_u16 (((s.stack.pointer + 1 : Nat) : Int) - 1) = s.stack.pointer := by
      unfold to_u16; omega
    have hv : vx % 65536 = vx := by omega
    unfold stack_pop
    simp only [hp1]
    rw [if_pos (by omega), hp2]
    simp only [Nat.add_sub_cancel, if_pos, hv]
  have hrun2 : parse_iter schar
      { s with
        stack := { data := fun i => if i = s.stack.pointer then vx % 65536
                                    else s.stack.data i,
                   pointer := (s.stack.pointer + 1) % 65536 },
        rPC := s.rPC + 4 } =
      some (.running,
        { reg_write { s with
            stack := { data := fun i => if i = s.stack.pointer then vx % 65536
                                        else s.stack.data i,
                       pointer := s.stack.pointer },
            rPC := s.rPC + 4 } rr vx with rPC := s.rPC + 8 }) := by
    have g0 : get_next_pair s.memory (s.rPC + 4) = some (s.rPC + 4 + 2, 3) :=
      get_next_pair_of_word_at h2
    have g1 : get_next_pair s.memory (s.rPC + 4 + 2) = some (s.rPC + 4 + 2 + 2, r) :=
      get_next_pair_of_word_at h3
    have hu : to_u16 ((s.rPC : Int) + 4 + 2 + 2) = s.rPC + 8 := by unfold to_u16; omega
    simp [parse_iter, operate, get_instruction, instruction_pop, store_reg, hpop,
      g0, g1, hr, advance, hu]
    omega
  refine ⟨_, _, hrun1, hrun2, ?_, ?_, ?_⟩
  · rw [reg_read_with_rPC, reg_read_reg_write_same]
  · simp
  · intro i hi
    simp
    intro h
    omega

/-- Witness for C6: `push r1; pop r0` with `r1 = 1234` and three words on the
stack. -/
theorem push_pop_round_trip_witness :
    ∃ s1 s2, parse_iter true (push_pop_state 3) = some (.running, s1) ∧
      parse_iter true s1 = some (.running, s2) ∧
      reg_read s2 .r0 = 1234 ∧
      s2.stack.pointer = (push_pop_state 3).stack.pointer ∧
      ∀ i, i < (push_pop_state 3).stack.pointer →
        s2.stack.data i = (push_pop_state 3).stack.data i :=
  push_pop_round_trip true (push_pop_state 3) 32769 32768 1234 .r0
    (by decide) (by decide) (by decide) (by decide) (by decide) (by decide) (by decide)
    (by decide)

/-- C6 fails on a full stack: with 32767 words on the stack the store made
by `push` lies outside the block obtained by `malloc(0xFFFF)`. -/
theorem push_on_full_stack_counterexample :
    word_at (push_pop_state 32767) (push_pop_state 32767).rPC = some 2 ∧
    word_at (push_pop_state 32767) ((push_pop_state 32767).rPC + 2) = some 32769 ∧
    word_at (push_pop_state 32767) ((push_pop_state 32767).rPC + 4) = some 3 ∧
    word_at (push_pop_state 32767) ((push_pop_state 32767).rPC + 6) = some 32768 ∧
    (push_pop_state 32767).stack.pointer = 32767 ∧
    parse_iter true (push_pop_state 32767) = none := by
  refine ⟨?_, ?_, ?_, ?_, ?_, rfl⟩ <;> decide

/-! ## Memory and image loading -/

theorem mem_set_get_below (m : Memory) (a v : Nat) (ha : a ≤ 32766) (hv : v ≤ 65535) :
    ∃ m', mem_set m a v = some m' ∧ mem_get m' a = some v ∧
      ∀ a', a' ≤ 32766 → a' ≠ a → mem_get m' a' = mem_get m a' := by
  have hbytes : mem_bytes = 65534 := by decide
  have haddr : a * 2 % 65536 = a * 2 := by omega
  have hset : mem_set m a v = some { m with mem := (fun i =>
      if i = a * 2 + 1 then (v >>> 8) % 256
      else if i = a * 2 then v % 256
      else m.mem i) } := by
    unfold mem_set
    simp only [haddr]
    rw [if_pos (by omega)]
  refine ⟨_, hset, ?_, ?_⟩
  · unfold mem_get get_next_pair
    simp only [haddr]
    rw [if_pos (by omega)]
    simp [Nat.shiftLeft_eq, Nat.shiftRight_eq_div_pow]
    omega
  · intro a' ha' hne
    have haddr' : a' * 2 % 65536 = a' * 2 := by omega
    have hlt : a' * 2 + 1 < mem_bytes := by omega
    unfold mem_get get_next_pair
    simp only [haddr', if_pos hlt]
    have h1 : a' * 2 + 1 ≠ a * 2 + 1 := by omega
    have h2 : a' * 2 + 1 ≠ a * 2 := by omega
    have h3 : a' * 2 ≠ a * 2 + 1 := by omega
    have h4 : a' * 2 ≠ a * 2 := by omega
    simp [h1, h2, h3, h4]

theorem boot_words_below (file input : List Nat) (n : Nat)
    (hlen : file.length = 2 * n) (hn : n ≤ 32767) :
    ∃ s, boot file input = some s ∧ s.rPC = 0 ∧
      ∀ i, i ≤ 32766 → mem_get s.memory i =
        some (if i < n then (file.getD (2 * i) 0 % 256) ||| ((file.getD (2 * i + 1) 0 % 256) <<< 8)
              else 0) := by
  have hbytes : mem_bytes = 65534 := by decide
  have hboot : boot file input = some
      { stack := stack_init,
        memory := { mem_init with mem := (fun i =>
          if i < file.length then file.getD i 0 % 256 else mem_init.mem i) },
        rPC := 0, r0 := 0, r1 := 0, r2 := 0, r3 := 0, r4 := 0, r5 := 0, r6 := 0, r7 := 0,
        input := input, output := [] } := by
    unfold boot fread
    rw [if_pos (by omega)]
    rfl
  refine ⟨_, hboot, rfl, ?_⟩
  intro i hi
  have haddr : i * 2 % 65536 = i * 2 := by omega
  have hlt : i * 2 + 1 < mem_bytes := by omega
  unfold mem_get get_next_pair
  simp only [haddr, if_pos hlt, Option.map_some']
  by_cases hin : i < n
  · have h1 : i * 2 + 1 < file.length := by omega
    have h2 : i * 2 < file.length := by omega
    have hb : file.getD (i * 2) 0 % 256 < 2 ^ 8 := Nat.mod_lt _ (by decide)
    simp only [h1, h2, if_pos, hin]
    have hh : file.getD (i * 2 + 1) 0 % 256 < 256 := Nat.mod_lt _ (by decide)
    have hsum : (file.getD (i * 2 + 1) 0 % 256) <<< 8 + file.getD (i * 2) 0 % 256 < 65536 := by
      rw [Nat.shiftLeft_eq]; omega
    rw [Nat.mod_eq_of_lt hsum, Nat.shiftLeft_eq, Nat.mul_comm _ (2 ^ 8),
      Nat.mul_add_lt_is_or hb, Nat.lor_comm, Nat.mul_comm 2 i, Nat.shiftLeft_eq,
      Nat.mul_comm (2 ^ 8)]
  · have h1 : ¬ i * 2 + 1 < file.length := by omega
    have h2 : ¬ i * 2 < file.length := by omega
    simp [h1, h2, hin, mem_init]

/-- C7 at address 32767: `mem_set` and `mem_get` double the address to byte
offset 65534, which is outside the block of `2 * 0x7FFF = 65534` bytes
allocated by `mem_init`; the instruction `wmem 32767 5` has no defined
result. -/
theorem last_address_outside_block :
    mem_set mem_init 32767 5 = none ∧ mem_get mem_init 32767 = none ∧
    word_at (machine_of_words [16, 32767, 5] []) 0 = some 16 ∧
    parse_iter true (machine_of_words [16, 32767, 5] []) = none := by
  refine ⟨rfl, ?_, ?_, rfl⟩ <;> decide

/-- C8 at word address 32767 and at an image of 32768 words: after loading
the image `15, 32768, 32767` (the instruction `rmem r0 32767`) the PC is 0 and
the word at address 32766 reads 0, but address 32767 is outside the memory
block, so neither `mem_get` nor the instruction has a defined result; and an
image of 65536 bytes does not fit the block. -/
theorem boot_last_word_unreadable :
    (∃ s, boot (image_of_words [15, 32768, 32767]) [] = some s ∧ s.rPC = 0 ∧
      mem_get s.memory 32766 = some 0 ∧ mem_get s.memory 32767 = none ∧
      parse_iter true s = none) ∧
    boot (List.replicate 65536 0) [] = none := by
  refine ⟨⟨_, rfl, ?_, ?_, ?_, rfl⟩, ?_⟩
  · decide
  · decide
  · decide
  · have hlen : (List.replicate 65536 0).length = 65536 := List.length_replicate _ _
    unfold boot fread
    rw [if_neg (by rw [hlen]; decide)]
    rfl

/-! ## Program counter -/

theorem parse_iter_running {schar : Bool} {s s' : Machine}
    (h : parse_iter schar s = some (.running, s')) :
    ∃ op t ret, word_at s s.rPC = some op ∧
      operate schar s op (s.rPC + 2) = some (t, ret) ∧ ret ≠ -1 ∧
      s' = { t with rPC := to_u16 ret } := by
  simp [parse_iter, Option.bind_eq_some] at h
  obtain ⟨b, op, hf, t, ret, hop, h⟩ := h
  refine ⟨op, t, ret, ?_, hop, ?_⟩
  · simp [word_at, hf]
  · split_ifs at h with hr
    · simp at h
    · simp at h; exact ⟨hr, h.symm⟩

theorem instruction_jt_not_taken {s s' : Machine} {buf a : Nat} {ret : Int}
    (h : instruction_jt s buf = some (s', ret))
    (ha : get_next_pair s.memory buf = some (buf + 2, a))
    (h0 : load_operand s a = some 0) : ret = advance s 4 := by
  simp [instruction_jt, Option.bind_eq_some, ha, h0] at h
  obtain ⟨b2, b, h2, vb, hvb, -, rfl⟩ := h
  rfl

theorem instruction_jf_not_taken {s s' : Machine} {buf a va : Nat} {ret : Int}
    (h : instruction_jf s buf = some (s', ret))
    (ha : get_next_pair s.memory buf = some (buf + 2, a))
    (h0 : load_operand s a = some va) (hva : va ≠ 0) : ret = advance s 4 := by
  simp [instruction_jf, Option.bind_eq_some, ha, h0, hva] at h
  obtain ⟨b2, b, h2, vb, hvb, -, rfl⟩ := h
  rfl

/-- C9: when an instruction other than halt, jmp, call and ret (for jt and
jf: one whose jump is not taken) completes at word PC `p` with
`p + 1 + N ≤ 32767`, `N` being the operand count of its opcode in the
instruction table, the word PC afterwards is `p + 1 + N`. -/
theorem fallthrough_advances_pc (schar : Bool) (s s' : Machine) (p w : Nat)
    (hpc : s.rPC = 2 * p)
    (hw : word_at s s.rPC = some w)
    (hop : w ∈ [1, 2, 3, 4, 5, 7, 8, 9, 10, 11, 12, 13, 14, 15, 16, 19, 20, 21])
    (hp : p + 1 + isa_operands w ≤ 32767)
    (hjt : w = 7 → ∃ a, word_at s (s.rPC + 2) = some a ∧ load_operand s a = some 0)
    (hjf : w = 8 → ∃ a va, word_at s (s.rPC + 2) = some a ∧
      load_operand s a = some va ∧ va ≠ 0)
    (hrun : parse_iter schar s = some (.running, s')) :
    s'.rPC = 2 * (p + 1 + isa_operands w) := by
  obtain ⟨op, t, ret, hop', hexec, hret, rfl⟩ := parse_iter_running hrun
  rw [hw] at hop'
  obtain rfl : w = op := by simpa using hop'
  show to_u16 ret = _
  have hadv : ret = advance s (2 * isa_operands w) := by
    by_cases h7 : w = 7
    · subst h7
      obtain ⟨a, ha, h0⟩ := hjt rfl
      simp [operate, get_instruction] at hexec
      simpa [isa_operands] using instruction_jt_not_taken hexec (get_next_pair_of_word_at ha) h0
    by_cases h8 : w = 8
    · subst h8
      obtain ⟨a, va, ha, h0, hva⟩ := hjf rfl
      simp [operate, get_instruction] at hexec
      simpa [isa_operands] using
        instruction_jf_not_taken hexec (get_next_pair_of_word_at ha) h0 hva
    · have he := (operate_effect hexec).2.2.2
      have hw0 : w ≠ 0 := by rintro rfl; simp at hop
      have hw1 : ¬ (w = 6 ∨ w = 17 ∨ w = 18) := by
        rintro (rfl | rfl | rfl) <;> simp at hop
      have hw2 : ¬ (w = 7 ∨ w = 8) := by
        rintro (rfl | rfl) <;> simp at h7 h8
      rw [if_neg hw0, if_neg hw1, if_neg hw2] at he
      exact he
  rw [hadv]
  unfold advance to_u16
  omega

/-- Witness for C9: `add r0 r0 1` at word address 0, and `jt r0 5` with
`r0 = 0` at word address 1. -/
theorem fallthrough_advances_pc_witness :
    ({ reg_write (add_state 1) .r0 0 with rPC := 8 } : Machine).rPC =
      2 * (0 + 1 + isa_operands 9) ∧
    ({ jump_state 7 0 with rPC := 8 } : Machine).rPC = 2 * (1 + 1 + isa_operands 7) :=
  ⟨fallthrough_advances_pc true (add_state 1) _ 0 9 (by decide) (by decide) (by decide)
    (by decide) (fun h => absurd h (by decide)) (fun h => absurd h (by decide)) rfl,
   fallthrough_advances_pc true (jump_state 7 0) _ 1 7 (by decide) (by decide) (by decide)
    (by decide) (fun _ => ⟨32768, by decide, by decide⟩) (fun h => absurd h (by decide))
    rfl⟩

/-- C10: at word PC `p` with `p + 3 ≤ 32767` and `val(b) ≤ 32767`, `jt a b`
sets the PC to `val(b)` when `val(a) ≠ 0` and to `p + 3` otherwise, `jf a b`
sets it to `val(b)` when `val(a) = 0` and to `p + 3` otherwise; nothing but
the PC changes (registers, memory, stack and both streams stay). -/
theorem conditional_jumps (schar : Bool) (s : Machine) (p a b va vb : Nat)
    (hpc : s.rPC = 2 * p) (hp : p + 3 ≤ 32767)
    (ha : word_at s (s.rPC + 2) = some a)
    (hb : word_at s (s.rPC + 4) = some b)
    (hva : val s a = some va) (hvb : val s b = some vb) (hvr : vb ≤ 32767) :
    (word_at s s.rPC = some 7 →
      parse_iter schar s =
        some (.running, { s with rPC := if va ≠ 0 then 2 * vb else 2 * (p + 3) })) ∧
    (word_at s s.rPC = some 8 →
      parse_iter schar s =
        some (.running, { s with rPC := if va = 0 then 2 * vb else 2 * (p + 3) })) := by
  have hu1 : to_u16 ((vb : Int) * 2) = 2 * vb := by unfold to_u16; omega
  have hu2 : to_u16 ((s.rPC : Int) + 2 + 4) = 2 * (p + 3) := by unfold to_u16; omega
  constructor
  · intro hop
    by_cases h0 : va = 0
    · simp [parse_iter, operate, get_instruction, instruction_jt,
        get_next_pair_of_word_at hop, get_next_pair_of_word_at ha,
        get_next_pair_of_word_at hb, val_load_operand hva, val_load_operand hvb, advance,
        h0, hu2]
      omega
    · simp [parse_iter, operate, get_instruction, instruction_jt,
        get_next_pair_of_word_at hop, get_next_pair_of_word_at ha,
        get_next_pair_of_word_at hb, val_load_operand hva, val_load_operand hvb, advance,
        h0, hu1]
      omega
  · intro hop
    by_cases h0 : va = 0
    · simp [parse_iter, operate, get_instruction, instruction_jf,
        get_next_pair_of_word_at hop, get_next_pair_of_word_at ha,
        get_next_pair_of_word_at hb, val_load_operand hva, val_load_operand hvb, advance,
        h0, hu1]
      omega
    · simp [parse_iter, operate, get_instruction, instruction_jf,
        get_next_pair_of_word_at hop, get_next_pair_of_word_at ha,
        get_next_pair_of_word_at hb, val_load_operand hva, val_load_operand hvb, advance,
        h0, hu2]
      omega

/-- Witness for C10: `jt r0 5` and `jf r0 5` at word address 1, each with
`r0 = 1` and with `r0 = 0`. -/
theorem conditional_jumps_witness :
    parse_iter true (jump_state 7 1) =
      some (.running, { jump_state 7 1 with rPC := if 1 ≠ 0 then 2 * 5 else 2 * (1 + 3) }) ∧
    parse_iter true (jump_state 7 0) =
      some (.running, { jump_state 7 0 with rPC := if 0 ≠ 0 then 2 * 5 else 2 * (1 + 3) }) ∧
    parse_iter true (jump_state 8 1) =
      some (.running, { jump_state 8 1 with rPC := if 1 = 0 then 2 * 5 else 2 * (1 + 3) }) ∧
    parse_iter true (jump_state 8 0) =
      some (.running, { jump_state 8 0 with rPC := if 0 = 0 then 2 * 5 else 2 * (1 + 3) }) :=
  ⟨(conditional_jumps true (jump_state 7 1) 1 32768 5 1 5 (by decide) (by decide)
      (by decide) (by decide) (by decide) (by decide) (by decide)).1 (by decide),
   (conditional_jumps true (jump_state 7 0) 1 32768 5 0 5 (by decide) (by decide)
      (by decide) (by decide) (by decide) (by decide) (by decide)).1 (by decide),
   (conditional_jumps true (jump_state 8 1) 1 32768 5 1 5 (by decide) (by decide)
      (by decide) (by decide) (by decide) (by decide) (by decide)).2 (by decide),
   (conditional_jumps true (jump_state 8 0) 1 32768 5 0 5 (by decide) (by decide)
      (by decide) (by decide) (by decide) (by decide) (by decide)).2 (by decide)⟩

/-! ## The `noop` instruction -/

/-- C11: when the instruction at the program counter is `noop`, executing it
changes nothing but the PC (registers, memory, stack and both streams stay)
and the word PC advances by exactly 1. -/
theorem noop_only_advances (schar : Bool) (s : Machine)
    (hop : word_at s s.rPC = some 21) :
    parse_iter schar s = some (.running, { s with rPC := s.rPC + 2 }) ∧
      (s.rPC + 2) / 2 = s.rPC / 2 + 1 := by
  have hb := word_at_bound hop
  have hu : to_u16 ((s.rPC : Int) + 2) = s.rPC + 2 := by unfold to_u16; omega
  refine ⟨?_, by omega⟩
  simp [parse_iter, operate, get_instruction, instruction_noop,
    get_next_pair_of_word_at hop, advance, hu]
  omega

/-- Witness for C11: `noop` at word address 0. -/
theorem noop_only_advances_witness :
    parse_iter true noop_state = some (.running, { noop_state with rPC := noop_state.rPC + 2 }) ∧
      (noop_state.rPC + 2) / 2 = noop_state.rPC / 2 + 1 :=
  noop_only_advances true noop_state (by decide)

/-! ## Memory addresses from 32768 on -/

theorem mem_get_wrap (m : Memory) {v : Nat} (h1 : 32768 ≤ v) (h2 : v ≤ 65535) :
    mem_get m v = mem_get m (v - 32768) := by
  unfold mem_get
  have : v * 2 % 65536 = (v - 32768) * 2 % 65536 := by omega
  simp only [this]

theorem mem_set_wrap (m : Memory) {v : Nat} (x : Nat) (h1 : 32768 ≤ v) (h2 : v ≤ 65535) :
    mem_set m v x = mem_set m (v - 32768) x := by
  unfold mem_set
  have : v * 2 % 65536 = (v - 32768) * 2 % 65536 := by omega
  simp only [this]

theorem mem_get_defined (m : Memory) {a : Nat} (h : a ≤ 32766) :
    ∃ w, mem_get m a = some w := by
  have hbytes : mem_bytes = 65534 := by decide
  have haddr : a * 2 % 65536 = a * 2 := by omega
  unfold mem_get get_next_pair
  simp only [haddr]
  rw [if_pos (by omega)]
  exact ⟨_, rfl⟩

theorem mem_set_defined (m : Memory) {a : Nat} (x : Nat) (h : a ≤ 32766) :
    ∃ m', mem_set m a x = some m' := by
  have hbytes : mem_bytes = 65534 := by decide
  have haddr : a * 2 % 65536 = a * 2 := by omega
  unfold mem_set
  simp only [haddr]
  rw [if_pos (by omega)]
  exact ⟨_, rfl⟩

/-- C12, amended: when the address operand of `rmem a b` (`val(b)`) or of
`wmem a b` (`val(a)`) resolves to a value `v` with `32768 ≤ v ≤ 65534`, the
instruction is not an error: the doubling of the `u16` address wraps, `rmem`
reads the word at address `v - 32768` into register `a`, `wmem` overwrites
the word at address `v - 32768` with `val(b)`, and the engine keeps running
with the PC advanced by 3 words. -/
theorem memory_address_wraps (schar : Bool) (s : Machine) (a b va vb : Nat)
    (ha : word_at s (s.rPC + 2) = some a)
    (hb : word_at s (s.rPC + 4) = some b) :
    (∀ ra, word_at s s.rPC = some 15 → get_register a = some ra → val s b = some vb →
      32768 ≤ vb → vb ≤ 65534 →
      ∃ w, mem_get s.memory (vb - 32768) = some w ∧
        parse_iter schar s =
          some (.running, { (reg_write s ra w) with rPC := s.rPC + 6 })) ∧
    (word_at s s.rPC = some 16 → val s a = some va → val s b = some vb →
      32768 ≤ va → va ≤ 65534 →
      ∃ m, mem_set s.memory (va - 32768) vb = some m ∧
        parse_iter schar s =
          some (.running, { s with memory := m, rPC := s.rPC + 6 })) := by
  have hbd := word_at_bound hb
  have hu : to_u16 ((s.rPC : Int) + 2 + 4) = s.rPC + 6 := by unfold to_u16; omega
  constructor
  · intro ra hop hra hvb h1 h2
    obtain ⟨w, hw⟩ := mem_get_defined s.memory (show vb - 32768 ≤ 32766 by omega)
    have hw2 : mem_get s.memory vb = some w := by rw [mem_get_wrap _ h1 (by omega), hw]
    refine ⟨w, hw, ?_⟩
    simp [parse_iter, operate, get_instruction, instruction_rmem, store_reg,
      get_next_pair_of_word_at hop, get_next_pair_of_word_at ha,
      get_next_pair_of_word_at hb, val_load_operand hvb, hra, hw2, advance, hu]
    omega
  · intro hop hva hvb h1 h2
    obtain ⟨m, hm⟩ := mem_set_defined s.memory vb (show va - 32768 ≤ 32766 by omega)
    have hm2 : mem_set s.memory va vb = some m := by rw [mem_set_wrap _ _ h1 (by omega), hm]
    refine ⟨m, hm, ?_⟩
    simp [parse_iter, operate, get_instruction, instruction_wmem,
      get_next_pair_of_word_at hop, get_next_pair_of_word_at ha,
      get_next_pair_of_word_at hb, val_load_operand hva, val_load_operand hvb, hm2,
      advance, hu]
    omega

/-- Witness for C12: `rmem r1 r0` and `wmem r0 7` with `r0 = 32768`. -/
theorem memory_address_wraps_witness :
    (∃ w, mem_get rmem_wrap_state.memory (32768 - 32768) = some w ∧
      parse_iter true rmem_wrap_state =
        some (.running, { (reg_write rmem_wrap_state .r1 w) with
          rPC := rmem_wrap_state.rPC + 6 })) ∧
    (∃ m, mem_set wmem_wrap_state.memory (32768 - 32768) 7 = some m ∧
      parse_iter true wmem_wrap_state =
        some (.running,
          { wmem_wrap_state with memory := m, rPC := wmem_wrap_state.rPC + 6 })) :=
  ⟨(memory_address_wraps true rmem_wrap_state 32769 32768 0 32768 (by decide)
      (by decide)).1 .r1 (by decide) (by decide) (by decide) (by decide) (by decide),
   (memory_address_wraps true wmem_wrap_state 32768 7 32768 7 (by decide)
      (by decide)).2 (by decide) (by decide) (by decide) (by decide) (by decide)⟩

/-- C12 fails: in the program `rmem r0 1; rmem r1 r0; wmem r0 7` register
`r0` holds 32768 after the first instruction; `rmem r1 r0` then reads the word
15 at address 0 into `r1` and `wmem r0 7` overwrites address 0 with 7, the
engine running on after each. -/
theorem address_32768_counterexample :
    ∃ s1 s2 s3, parse_iter true (machine_of_words wrap_program []) = some (.running, s1) ∧
      val s1 32768 = some 32768 ∧
      parse_iter true s1 = some (.running, s2) ∧ reg_read s2 .r1 = 15 ∧
      parse_iter true s2 = some (.running, s3) ∧ mem_get s3.memory 0 = some 7 ∧
      mem_get s2.memory 0 = some 15 := by
  refine ⟨_, _, _, rfl, ?_, rfl, ?_, rfl, ?_, ?_⟩ <;> decide

/-! ## Operand words from 32776 on -/

theorem word_value_load_operand {s : Machine} {w v : Nat} (h : word_value s w = some v) :
    load_operand s w = some v := by
  unfold word_value at h
  split_ifs at h with hw
  · unfold load_operand is_register
    have : ¬ w ≤ 32775 := by omega
    simpa [this] using h
  · exact val_load_operand h

theorem to_u16_double (v : Nat) : to_u16 ((v : Int) * 2) = v * 2 % 65536 := by
  unfold to_u16; omega

/-- C13, amended: a word `w ≥ 32776` in a value-operand position is not
rejected; the instruction takes `w` itself as the operand's value
(`word_value`), as it does for a literal, and carries out its ordinary effect
with it, the engine running on.  Stated for each of the seventeen
instructions with a value operand by its exact successor state: set, push,
eq, gt, jmp, jt, jf, add, mult (product below 2^31), mod (divisor not 0), and,
or, not, rmem and wmem (access inside the memory block), call and push (fewer
than 32767 words on the stack), out.  In particular `push w` pushes `w`. -/
theorem invalid_operand_used_as_value (schar : Bool) (s : Machine) (w : Nat)
    (hw : 32776 ≤ w) :
    load_operand s w = some w ∧
    (word_at s s.rPC = some 2 → word_at s (s.rPC + 2) = some w →
      s.stack.pointer < stack_slots →
      ∃ s', parse_iter schar s = some (.running, s') ∧
        s'.stack.pointer = s.stack.pointer + 1 ∧
        s'.stack.data s.stack.pointer = w) ∧
    word_value s w = some w ∧
    (∀ a b ra vb, word_at s s.rPC = some 1 → word_at s (s.rPC + 2) = some a →
      word_at s (s.rPC + 4) = some b → get_register a = some ra →
      word_value s b = some vb →
      parse_iter schar s =
        some (.running, { (reg_write s ra vb) with rPC := s.rPC + 6 })) ∧
    (∀ a va, word_at s s.rPC = some 2 → word_at s (s.rPC + 2) = some a →
      word_value s a = some va → s.stack.pointer < stack_slots →
      parse_iter schar s =
        some (.running, { s with
          stack := { data := fun i => if i = s.stack.pointer then va % 65536
                                      else s.stack.data i,
                     pointer := (s.stack.pointer + 1) % 65536 },
          rPC := s.rPC + 4 })) ∧
    (∀ a b c ra vb vc, word_at s s.rPC = some 4 → word_at s (s.rPC + 2) = some a →
      word_at s (s.rPC + 4) = some b → word_at s (s.rPC + 6) = some c →
      get_register a = some ra → word_value s b = some vb → word_value s c = some vc →
      parse_iter schar s =
        some (.running,
          { (reg_write s ra (if vb = vc then 1 else 0)) with rPC := s.rPC + 8 })) ∧
    (∀ a b c ra vb vc, word_at s s.rPC = some 5 → word_at s (s.rPC + 2) = some a →
      word_at s (s.rPC + 4) = some b → word_at s (s.rPC + 6) = some c →
      get_register a = some ra → word_value s b = some vb → word_value s c = some vc →
      parse_iter schar s =
        some (.running,
          { (reg_write s ra (if vb > vc then 1 else 0)) with rPC := s.rPC + 8 })) ∧
    (∀ a va, word_at s s.rPC = some 6 → word_at s (s.rPC + 2) = some a →
      word_value s a = some va →
      parse_iter schar s = some (.running, { s with rPC := va * 2 % 65536 })) ∧
    (∀ a b va vb, word_at s s.rPC = some 7 → word_at s (s.rPC + 2) = some a →
      word_at s (s.rPC + 4) = some b → word_value s a = some va →
      word_value s b = some vb →
      parse_iter schar s =
        some (.running,
          { s with rPC := if va ≠ 0 then vb * 2 % 65536 else s.rPC + 6 })) ∧
    (∀ a b va vb, word_at s s.rPC = some 8 → word_at s (s.rPC + 2) = some a →
      word_at s (s.rPC + 4) = some b → word_value s a = some va →
      word_value s b = some vb →
      parse_iter schar s =
        some (.running,
          { s with rPC := if va = 0 then vb * 2 % 65536 else s.rPC + 6 })) ∧
    (∀ a b c ra vb vc, word_at s s.rPC = some 9 → word_at s (s.rPC + 2) = some a →
      word_at s (s.rPC + 4) = some b → word_at s (s.rPC + 6) = some c →
      get_register a = some ra → word_value s b = some vb → word_value s c = some vc →
      parse_iter schar s =
        some (.running,
          { (reg_write s ra ((vb + vc) % 32768)) with rPC := s.rPC + 8 })) ∧
    (∀ a b c ra vb vc, word_at s s.rPC = some 10 → word_at s (s.rPC + 2) = some a →
      word_at s (s.rPC + 4) = some b → word_at s (s.rPC + 6) = some c →
      get_register a = some ra → word_value s b = some vb → word_value s c = some vc →
      vb * vc < 2 ^ 31 →
      parse_iter schar s =
        some (.running,
          { (reg_write s ra ((vb * vc) % 32768)) with rPC := s.rPC + 8 })) ∧
    (∀ a b c ra vb vc, word_at s s.rPC = some 11 → word_at s (s.rPC + 2) = some a →
      word_at s (s.rPC + 4) = some b → word_at s (s.rPC + 6) = some c →
      get_register a = some ra → word_value s b = some vb → word_value s c = some vc →
      vc ≠ 0 →
      parse_iter schar s =
        some (.running, { (reg_write s ra (vb % vc)) with rPC := s.rPC + 8 })) ∧
    (∀ a b c ra vb vc, word_at s s.rPC = some 12 → word_at s (s.rPC + 2) = some a →
      word_at s (s.rPC + 4) = some b → word_at s (s.rPC + 6) = some c →
      get_register a = some ra → word_value s b = some vb → word_value s c = some vc →
      parse_iter schar s =
        some (.running, { (reg_write s ra (vb &&& vc)) with rPC := s.rPC + 8 })) ∧
    (∀ a b c ra vb vc, word_at s s.rPC = some 13 → word_at s (s.rPC + 2) = some a →
      word_at s (s.rPC + 4) = some b → word_at s (s.rPC + 6) = some c →
      get_register a = some ra → word_value s b = some vb → word_value s c = some vc →
      parse_iter schar s =
        some (.running, { (reg_write s ra (vb ||| vc)) with rPC := s.rPC + 8 })) ∧
    (∀ a b ra vb, word_at s s.rPC = some 14 → word_at s (s.rPC + 2) = some a →
      word_at s (s.rPC + 4) = some b → get_register a = some ra →
      word_value s b = some vb →
      parse_iter schar s =
        some (.running, { (reg_write s ra (not_result vb)) with rPC := s.rPC + 6 })) ∧
    (∀ a b ra vb x, word_at s s.rPC = some 15 → word_at s (s.rPC + 2) = some a →
      word_at s (s.rPC + 4) = some b → get_register a = some ra →
      word_value s b = some vb → mem_get s.memory vb = some x →
      parse_iter schar s =
        some (.running, { (reg_write s ra x) with rPC := s.rPC + 6 })) ∧
    (∀ a b va vb m, word_at s s.rPC = some 16 → word_at s (s.rPC + 2) = some a →
      word_at s (s.rPC + 4) = some b → word_value s a = some va →
      word_value s b = some vb → mem_set s.memory va vb = some m →
      parse_iter schar s =
        some (.running, { s with memory := m, rPC := s.rPC + 6 })) ∧
    (∀ a va, word_at s s.rPC = some 17 → word_at s (s.rPC + 2) = some a →
      word_value s a = some va → s.stack.pointer < stack_slots →
      parse_iter schar s =
        some (.running, { s with
          stack := { data := fun i => if i = s.stack.pointer
                                      then (s.rPC + 2 + 2) / 2 % 65536
                                      else s.stack.data i,
                     pointer := (s.stack.pointer + 1) % 65536 },
          rPC := va * 2 % 65536 })) ∧
    (∀ a va, word_at s s.rPC = some 19 → word_at s (s.rPC + 2) = some a →
      word_value s a = some va →
      parse_iter schar s =
        some (.running,
          { s with output := s.output ++ [va % 256], rPC := s.rPC + 4 })) := by
  have hload : load_operand s w = some w := by
    unfold load_operand is_register
    have : ¬ w ≤ 32775 := by omega
    simp [this]
  have hwv : word_value s w = some w := by
    unfold word_value; rw [if_pos hw]
  have h1op : ∀ {a : Nat}, word_at s (s.rPC + 2) = some a →
      to_u16 ((s.rPC : Int) + 2 + 2) = s.rPC + 4 := by
    intro a ha
    have := word_at_bound ha
    unfold to_u16; omega
  have h2op : ∀ {b : Nat}, word_at s (s.rPC + 4) = some b →
      to_u16 ((s.rPC : Int) + 2 + 4) = s.rPC + 6 := by
    intro b hb
    have := word_at_bound hb
    unfold to_u16; omega
  have h3op : ∀ {c : Nat}, word_at s (s.rPC + 6) = some c →
      to_u16 ((s.rPC : Int) + 2 + 6) = s.rPC + 8 := by
    intro c hc
    have := word_at_bound hc
    unfold to_u16; omega
  refine ⟨hload, ?_, hwv, ?_, ?_, ?_, ?_, ?_, ?_, ?_, ?_, ?_, ?_, ?_, ?_, ?_, ?_, ?_, ?_, ?_⟩
  · intro hop ha hroom
    have hslots : stack_slots = 32767 := by decide
    have hwl : w < 65536 := get_next_pair_lt (get_next_pair_of_word_at ha)
    have hrun : parse_iter schar s = some (.running,
        { s with
          stack := { data := fun i => if i = s.stack.pointer then w % 65536
                                      else s.stack.data i,
                     pointer := (s.stack.pointer + 1) % 65536 },
          rPC := s.rPC + 4 }) := by
      simp [parse_iter, operate, get_instruction, instruction_push, stack_push, hroom,
        get_next_pair_of_word_at hop, get_next_pair_of_word_at ha, hload, advance, h1op ha]
      omega
    refine ⟨_, hrun, ?_, ?_⟩
    · show (s.stack.pointer + 1) % 65536 = s.stack.pointer + 1
      omega
    · show (if s.stack.pointer = s.stack.pointer then w % 65536
          else s.stack.data s.stack.pointer) = w
      rw [if_pos rfl]; omega
  · intro a b ra vb hop ha hb hra hvb
    simp [parse_iter, operate, get_instruction, instruction_set, store_reg,
      get_next_pair_of_word_at hop, get_next_pair_of_word_at ha,
      get_next_pair_of_word_at hb, word_value_load_operand hvb, hra, advance, h2op hb]
    omega
  · intro a va hop ha hva hroom
    simp [parse_iter, operate, get_instruction, instruction_push, stack_push, hroom,
      get_next_pair_of_word_at hop, get_next_pair_of_word_at ha,
      word_value_load_operand hva, advance, h1op ha]
    omega
  · intro a b c ra vb vc hop ha hb hc hra hvb hvc
    simp [parse_iter, operate, get_instruction, instruction_eq, store_reg,
      get_next_pair_of_word_at hop, get_next_pair_of_word_at ha,
      get_next_pair_of_word_at hb, get_next_pair_of_word_at hc,
      word_value_load_operand hvb, word_value_load_operand hvc, hra, advance, h3op hc]
    omega
  · intro a b c ra vb vc hop ha hb hc hra hvb hvc
    simp [parse_iter, operate, get_instruction, instruction_gt, store_reg,
      get_next_pair_of_word_at hop, get_next_pair_of_word_at ha,
      get_next_pair_of_word_at hb, get_next_pair_of_word_at hc,
      word_value_load_operand hvb, word_value_load_operand hvc, hra, advance, h3op hc]
    omega
  · intro a va hop ha hva
    simp [parse_iter, operate, get_instruction, instruction_jmp,
      get_next_pair_of_word_at hop, get_next_pair_of_word_at ha,
      word_value_load_operand hva, to_u16_double]
    omega
  · intro a b va vb hop ha hb hva hvb
    by_cases h0 : va = 0
    · simp [parse_iter, operate, get_instruction, instruction_jt,
        get_next_pair_of_word_at hop, get_next_pair_of_word_at ha,
        get_next_pair_of_word_at hb, word_value_load_operand hva,
        word_value_load_operand hvb, advance, h0, h2op hb]
      omega
    · simp [parse_iter, operate, get_instruction, instruction_jt,
        get_next_pair_of_word_at hop, get_next_pair_of_word_at ha,
        get_next_pair_of_word_at hb, word_value_load_operand hva,
        word_value_load_operand hvb, advance, h0, to_u16_double]
      omega
  · intro a b va vb hop ha hb hva hvb
    by_cases h0 : va = 0
    · simp [parse_iter, operate, get_instruction, instruction_jf,
        get_next_pair_of_word_at hop, get_next_pair_of_word_at ha,
        get_next_pair_of_word_at hb, word_value_load_operand hva,
        word_value_load_operand hvb, advance, h0, to_u16_double]
      omega
    · simp [parse_iter, operate, get_instruction, instruction_jf,
        get_next_pair_of_word_at hop, get_next_pair_of_word_at ha,
        get_next_pair_of_word_at hb, word_value_load_operand hva,
        word_value_load_operand hvb, advance, h0, h2op hb]
      omega
  · intro a b c ra vb vc hop ha hb hc hra hvb hvc
    simp [parse_iter, operate, get_instruction, instruction_add, store_reg,
      get_next_pair_of_word_at hop, get_next_pair_of_word_at ha,
      get_next_pair_of_word_at hb, get_next_pair_of_word_at hc,
      word_value_load_operand hvb, word_value_load_operand hvc, hra, advance, h3op hc]
    omega
  · intro a b c ra vb vc hop ha hb hc hra hvb hvc hprod
    have hprod2 : vb * vc < 2147483648 := hprod
    simp [parse_iter, operate, get_instruction, instruction_mult, store_reg,
      get_next_pair_of_word_at hop, get_next_pair_of_word_at ha,
      get_next_pair_of_word_at hb, get_next_pair_of_word_at hc,
      word_value_load_operand hvb, word_value_load_operand hvc, hra, advance, h3op hc,
      hprod2]
    omega
  · intro a b c ra vb vc hop ha hb hc hra hvb hvc hne
    simp [parse_iter, operate, get_instruction, instruction_mod, store_reg,
      get_next_pair_of_word_at hop, get_next_pair_of_word_at ha,
      get_next_pair_of_word_at hb, get_next_pair_of_word_at hc,
      word_value_load_operand hvb, word_value_load_operand hvc, hra, advance, h3op hc,
      hne]
    omega
  · intro a b c ra vb vc hop ha hb hc hra hvb hvc
    simp [parse_iter, operate, get_instruction, instruction_and, store_reg,
      get_next_pair_of_word_at hop, get_next_pair_of_word_at ha,
      get_next_pair_of_word_at hb, get_next_pair_of_word_at hc,
      word_value_load_operand hvb, word_value_load_operand hvc, hra, advance, h3op hc]
    omega
  · intro a b c ra vb vc hop ha hb hc hra hvb hvc
    simp [parse_iter, operate, get_instruction, instruction_or, store_reg,
      get_next_pair_of_word_at hop, get_next_pair_of_word_at ha,
      get_next_pair_of_word_at hb, get_next_pair_of_word_at hc,
      word_value_load_operand hvb, word_value_load_operand hvc, hra, advance, h3op hc]
    omega
  · intro a b ra vb hop ha hb hra hvb
    simp [parse_iter, operate, get_instruction, instruction_not, store_reg,
      get_next_pair_of_word_at hop, get_next_pair_of_word_at ha,
      get_next_pair_of_word_at hb, word_value_load_operand hvb, hra, advance, h2op hb]
    omega
  · intro a b ra vb x hop ha hb hra hvb hx
    simp [parse_iter, operate, get_instruction, instruction_rmem, store_reg,
      get_next_pair_of_word_at hop, get_next_pair_of_word_at ha,
      get_next_pair_of_word_at hb, word_value_load_operand hvb, hra, hx, advance,
      h2op hb]
    omega
  · intro a b va vb m hop ha hb hva hvb hm
    simp [parse_iter, operate, get_instruction, instruction_wmem,
      get_next_pair_of_word_at hop, get_next_pair_of_word_at ha,
      get_next_pair_of_word_at hb, word_value_load_operand hva,
      word_value_load_operand hvb, hm, advance, h2op hb]
    omega
  · intro a va hop ha hva hroom
    simp [parse_iter, operate, get_instruction, instruction_call, stack_push, hroom,
      get_next_pair_of_word_at hop, get_next_pair_of_word_at ha,
      word_value_load_operand hva, to_u16_double]
    omega
  · intro a va hop ha hva
    simp [parse_iter, operate, get_instruction, instruction_out,
      get_next_pair_of_word_at hop, get_next_pair_of_word_at ha,
      word_value_load_operand hva, advance, h1op ha]
    omega


/-- Witness for C13: `push 32776` on the empty stack, and each of the
seventeen instructions run with the operand word 40000. -/
theorem invalid_operand_used_as_value_witness :
    load_operand push_invalid_state 32776 = some 32776 ∧
    (∃ s', parse_iter true push_invalid_state = some (.running, s') ∧
      s'.stack.pointer = push_invalid_state.stack.pointer + 1 ∧
      s'.stack.data push_invalid_state.stack.pointer = 32776) ∧
    word_value push_invalid_state 32776 = some 32776 ∧
    parse_iter true (machine_of_words [1, 32768, 40000] []) =
      some (.running,
        { (reg_write (machine_of_words [1, 32768, 40000] []) .r0 (40000)) with
          rPC := (machine_of_words [1, 32768, 40000] []).rPC + 6 }) ∧
    parse_iter true (machine_of_words [2, 40000] []) =
      some (.running, { (machine_of_words [2, 40000] []) with
        stack := { data := fun i => if i = (machine_of_words [2, 40000] []).stack.pointer then 40000 % 65536
                                    else (machine_of_words [2, 40000] []).stack.data i,
                   pointer := ((machine_of_words [2, 40000] []).stack.pointer + 1) % 65536 },
        rPC := (machine_of_words [2, 40000] []).rPC + 4 }) ∧
    parse_iter true (machine_of_words [4, 32768, 40000, 5] []) =
      some (.running,
        { (reg_write (machine_of_words [4, 32768, 40000, 5] []) .r0 (if 40000 = 5 then 1 else 0)) with
          rPC := (machine_of_words [4, 32768, 40000, 5] []).rPC + 8 }) ∧
    parse_iter true (machine_of_words [5, 32768, 40000, 5] []) =
      some (.running,
        { (reg_write (machine_of_words [5, 32768, 40000, 5] []) .r0 (if 40000 > 5 then 1 else 0)) with
          rPC := (machine_of_words [5, 32768, 40000, 5] []).rPC + 8 }) ∧
    parse_iter true (machine_of_words [6, 40000] []) =
      some (.running, { (machine_of_words [6, 40000] []) with rPC := 40000 * 2 % 65536 }) ∧
    parse_iter true (machine_of_words [7, 40000, 40001] []) =
      some (.running, { (machine_of_words [7, 40000, 40001] []) with
        rPC := if 40000 ≠ 0 then 40001 * 2 % 65536 else (machine_of_words [7, 40000, 40001] []).rPC + 6 }) ∧
    parse_iter true (machine_of_words [8, 0, 40000] []) =
      some (.running, { (machine_of_words [8, 0, 40000] []) with
        rPC := if 0 = 0 then 40000 * 2 % 65536 else (machine_of_words [8, 0, 40000] []).rPC + 6 }) ∧
    parse_iter true (machine_of_words [9, 32768, 40000, 5] []) =
      some (.running,
        { (reg_write (machine_of_words [9, 32768, 40000, 5] []) .r0 ((40000 + 5) % 32768)) with
          rPC := (machine_of_words [9, 32768, 40000, 5] []).rPC + 8 }) ∧
    parse_iter true (machine_of_words [10, 32768, 40000, 5] []) =
      some (.running,
        { (reg_write (machine_of_words [10, 32768, 40000, 5] []) .r0 ((40000 * 5) % 32768)) with
          rPC := (machine_of_words [10, 32768, 40000, 5] []).rPC + 8 }) ∧
    parse_iter true (machine_of_words [11, 32768, 40000, 7] []) =
      some (.running,
        { (reg_write (machine_of_words [11, 32768, 40000, 7] []) .r0 (40000 % 7)) with
          rPC := (machine_of_words [11, 32768, 40000, 7] []).rPC + 8 }) ∧
    parse_iter true (machine_of_words [12, 32768, 40000, 50000] []) =
      some (.running,
        { (reg_write (machine_of_words [12, 32768, 40000, 50000] []) .r0 (40000 &&& 50000)) with
          rPC := (machine_of_words [12, 32768, 40000, 50000] []).rPC + 8 }) ∧
    parse_iter true (machine_of_words [13, 32768, 5, 40000] []) =
      some (.running,
        { (reg_write (machine_of_words [13, 32768, 5, 40000] []) .r0 (5 ||| 40000)) with
          rPC := (machine_of_words [13, 32768, 5, 40000] []).rPC + 8 }) ∧
    parse_iter true (machine_of_words [14, 32768, 40000] []) =
      some (.running,
        { (reg_write (machine_of_words [14, 32768, 40000] []) .r0 (not_result 40000)) with
          rPC := (machine_of_words [14, 32768, 40000] []).rPC + 6 }) ∧
    parse_iter true (machine_of_words [15, 32768, 40000] []) =
      some (.running,
        { (reg_write (machine_of_words [15, 32768, 40000] []) .r0 0) with
          rPC := (machine_of_words [15, 32768, 40000] []).rPC + 6 }) ∧
    (∃ m, mem_set (machine_of_words [16, 40000, 40001] []).memory 40000 40001 = some m ∧
      parse_iter true (machine_of_words [16, 40000, 40001] []) =
        some (.running,
          { (machine_of_words [16, 40000, 40001] []) with memory := m, rPC := (machine_of_words [16, 40000, 40001] []).rPC + 6 })) ∧
    parse_iter true (machine_of_words [17, 40000] []) =
      some (.running, { (machine_of_words [17, 40000] []) with
        stack := { data := fun i => if i = (machine_of_words [17, 40000] []).stack.pointer
                                    then ((machine_of_words [17, 40000] []).rPC + 2 + 2) / 2 % 65536
                                    else (machine_of_words [17, 40000] []).stack.data i,
                   pointer := ((machine_of_words [17, 40000] []).stack.pointer + 1) % 65536 },
        rPC := 40000 * 2 % 65536 }) ∧
    parse_iter true (machine_of_words [19, 40000] []) =
      some (.running, { (machine_of_words [19, 40000] []) with
        output := (machine_of_words [19, 40000] []).output ++ [40000 % 256], rPC := (machine_of_words [19, 40000] []).rPC + 4 }) :=
  ⟨(invalid_operand_used_as_value true push_invalid_state 32776 (by decide)).1,
   (invalid_operand_used_as_value true push_invalid_state 32776 (by decide)).2.1
     (by decide) (by decide) (by decide),
   (invalid_operand_used_as_value true push_invalid_state 32776 (by decide)).2.2.1,
   (invalid_operand_used_as_value true (machine_of_words [1, 32768, 40000] []) 40000
     (by decide)).2.2.2.1 32768 40000 .r0 40000
     (by decide) (by decide) (by decide) (by decide) (by decide),
   (invalid_operand_used_as_value true (machine_of_words [2, 40000] []) 40000
     (by decide)).2.2.2.2.1 40000 40000
     (by decide) (by decide) (by decide) (by decide),
   (invalid_operand_used_as_value true (machine_of_words [4, 32768, 40000, 5] []) 40000
     (by decide)).2.2.2.2.2.1 32768 40000 5 .r0 40000 5
     (by decide) (by decide) (by decide) (by decide) (by decide) (by decide) (by decide),
   (invalid_operand_used_as_value true (machine_of_words [5, 32768, 40000, 5] []) 40000
     (by decide)).2.2.2.2.2.2.1 32768 40000 5 .r0 40000 5
     (by decide) (by decide) (by decide) (by decide) (by decide) (by decide) (by decide),
   (invalid_operand_used_as_value true (machine_of_words [6, 40000] []) 40000
     (by decide)).2.2.2.2.2.2.2.1 40000 40000
     (by decide) (by decide) (by decide),
   (invalid_operand_used_as_value true (machine_of_words [7, 40000, 40001] []) 40000
     (by decide)).2.2.2.2.2.2.2.2.1 40000 40001 40000 40001
     (by decide) (by decide) (by decide) (by decide) (by decide),
   (invalid_operand_used_as_value true (machine_of_words [8, 0, 40000] []) 40000
     (by decide)).2.2.2.2.2.2.2.2.2.1 0 40000 0 40000
     (by decide) (by decide) (by decide) (by decide) (by decide),
   (invalid_operand_used_as_value true (machine_of_words [9, 32768, 40000, 5] []) 40000
     (by decide)).2.2.2.2.2.2.2.2.2.2.1 32768 40000 5 .r0 40000 5
     (by decide) (by decide) (by decide) (by decide) (by decide) (by decide) (by decide),
   (invalid_operand_used_as_value true (machine_of_words [10, 32768, 40000, 5] []) 40000
     (by decide)).2.2.2.2.2.2.2.2.2.2.2.1 32768 40000 5 .r0 40000 5
     (by decide) (by decide) (by decide) (by decide) (by decide) (by decide) (by decide) (by decide),
   (invalid_operand_used_as_value true (machine_of_words [11, 32768, 40000, 7] []) 40000
     (by decide)).2.2.2.2.2.2.2.2.2.2.2.2.1 32768 40000 7 .r0 40000 7
     (by decide) (by decide) (by decide) (by decide) (by decide) (by decide) (by decide) (by decide),
   (invalid_operand_used_as_value true (machine_of_words [12, 32768, 40000, 50000] []) 40000
     (by decide)).2.2.2.2.2.2.2.2.2.2.2.2.2.1 32768 40000 50000 .r0 40000 50000
     (by decide) (by decide) (by decide) (by decide) (by decide) (by decide) (by decide),
   (invalid_operand_used_as_value true (machine_of_words [13, 32768, 5, 40000] []) 40000
     (by decide)).2.2.2.2.2.2.2.2.2.2.2.2.2.2.1 32768 5 40000 .r0 5 40000
     (by decide) (by decide) (by decide) (by decide) (by decide) (by decide) (by decide),
   (invalid_operand_used_as_value true (machine_of_words [14, 32768, 40000] []) 40000
     (by decide)).2.2.2.2.2.2.2.2.2.2.2.2.2.2.2.1 32768 40000 .r0 40000
     (by decide) (by decide) (by decide) (by decide) (by decide),
   (invalid_operand_used_as_value true (machine_of_words [15, 32768, 40000] []) 40000
     (by decide)).2.2.2.2.2.2.2.2.2.2.2.2.2.2.2.2.1 32768 40000 .r0 40000 0
     (by decide) (by decide) (by decide) (by decide) (by decide) (by decide),
   ⟨_, rfl, (invalid_operand_used_as_value true (machine_of_words [16, 40000, 40001] []) 40000
     (by decide)).2.2.2.2.2.2.2.2.2.2.2.2.2.2.2.2.2.1 40000 40001 40000 40001 _
     (by decide) (by decide) (by decide) (by decide) (by decide) rfl⟩,
   (invalid_operand_used_as_value true (machine_of_words [17, 40000] []) 40000
     (by decide)).2.2.2.2.2.2.2.2.2.2.2.2.2.2.2.2.2.2.1 40000 40000
     (by decide) (by decide) (by decide) (by decide),
   (invalid_operand_used_as_value true (machine_of_words [19, 40000] []) 40000
     (by decide)).2.2.2.2.2.2.2.2.2.2.2.2.2.2.2.2.2.2.2 40000 40000
     (by decide) (by decide) (by decide)⟩

/-- C13 fails: `push 32776` is no error, the word 32776 (which `is_valid`
rejects) ends up on the stack and the engine keeps running. -/
theorem push_32776_counterexample :
    ∃ s', parse_iter true (machine_of_words [2, 32776, 0] []) = some (.running, s') ∧
      s'.stack.pointer = 1 ∧ s'.stack.data 0 = 32776 ∧ is_valid 32776 = false := by
  refine ⟨_, rfl, ?_, ?_, ?_⟩ <;> decide

/-! ## `ret` on the empty stack -/

/-- C14 at the image `18` (`ret` on the empty stack): `stack_pop` reads
`data[-1]`, the slot before the stack block, so neither `instruction_ret` nor
the loop iteration has a defined result, and no amount of fuel makes the run
end in a normal halt. -/
theorem ret_on_empty_stack_undefined :
    (machine_of_words [18] []).stack.pointer = 0 ∧
    word_at (machine_of_words [18] []) (machine_of_words [18] []).rPC = some 18 ∧
    stack_pop (machine_of_words [18] []).stack = none ∧
    instruction_ret (machine_of_words [18] []) 2 = none ∧
    parse_iter true (machine_of_words [18] []) = none ∧
    ∀ fuel, parse true fuel (image_of_words [18]) [] = none := by
  refine ⟨?_, ?_, rfl, rfl, rfl, ?_⟩
  · decide
  · decide
  · intro fuel
    cases fuel <;> rfl

/-! ## `in` at end of input -/

/-- C15, amended: when the instruction at the program counter is `in a`
with `a` a register reference and standard input is at end-of-input, the
engine does not halt: the `EOF` returned by `getchar` goes through `char`
into register `a` as 65535 (plain `char` signed) or 255 (unsigned), and the
loop goes on with the PC advanced by 2 words. -/
theorem in_at_eof_stores_and_continues (schar : Bool) (s : Machine) (a : Nat) (ra : Reg)
    (hop : word_at s s.rPC = some 20)
    (ha : word_at s (s.rPC + 2) = some a)
    (hra : get_register a = some ra)
    (heof : s.input = []) :
    parse_iter schar s =
      some (.running,
        { (reg_write s ra (if schar then 65535 else 255)) with rPC := s.rPC + 4 }) := by
  have hb := word_at_bound ha
  have hu : to_u16 ((s.rPC : Int) + 2 + 2) = s.rPC + 4 := by unfold to_u16; omega
  have hg : getchar s = (-1, s) := by unfold getchar; rw [heof]
  have hc : char_to_u16 schar (-1) = if schar then 65535 else 255 := by
    cases schar <;> decide
  simp [parse_iter, operate, get_instruction, instruction_in, store_reg,
    get_next_pair_of_word_at hop, get_next_pair_of_word_at ha, hra, hg, hc, advance, hu]
  omega

/-- Witness for C15: `in r0` with empty standard input. -/
theorem in_at_eof_stores_and_continues_witness :
    parse_iter true in_eof_state =
      some (.running,
        { (reg_write in_eof_state .r0 (if true then 65535 else 255)) with
          rPC := in_eof_state.rPC + 4 }) :=
  in_at_eof_stores_and_continues true in_eof_state 32768 .r0
    (by decide) (by decide) (by decide) (by decide)

/-- C15 fails: `in r0` on empty standard input leaves the engine running and
changes `r0` from 0 to 65535 (plain `char` signed) or 255 (unsigned). -/
theorem in_at_eof_counterexample :
    in_eof_state.input = [] ∧ reg_read in_eof_state .r0 = 0 ∧
    (∃ s', parse_iter true in_eof_state = some (.running, s') ∧ reg_read s' .r0 = 65535) ∧
    (∃ s', parse_iter false in_eof_state = some (.running, s') ∧ reg_read s' .r0 = 255) := by
  refine ⟨?_, ?_, ⟨_, rfl, ?_⟩, ⟨_, rfl, ?_⟩⟩ <;> decide

/-! ## Dispatch -/

/-- C16: `get_instruction` returns no handler exactly for the words above
21, and then `operate` and the loop iteration stop with an error; for every
word 0..21 it returns the handler of the mnemonic the instruction table gives
(0 halt, 1 set, 2 push, 3 pop, 4 eq, 5 gt, 6 jmp, 7 jt, 8 jf, 9 add, 10 mult,
11 mod, 12 and, 13 or, 14 not, 15 rmem, 16 wmem, 17 call, 18 ret, 19 out,
20 in, 21 noop). -/
theorem dispatch_table (schar : Bool) :
    (∀ w, get_instruction schar w = none ↔ 21 < w) ∧
    (∀ s w buf, 21 < w → operate schar s w buf = none) ∧
    (∀ s w, word_at s s.rPC = some w → 21 < w → parse_iter schar s = none) ∧
    get_instruction schar 0 = some instruction_halt ∧
    get_instruction schar 1 = some instruction_set ∧
    get_instruction schar 2 = some instruction_push ∧
    get_instruction schar 3 = some instruction_pop ∧
    get_instruction schar 4 = some instruction_eq ∧
    get_instruction schar 5 = some instruction_gt ∧
    get_instruction schar 6 = some instruction_jmp ∧
    get_instruction schar 7 = some instruction_jt ∧
    get_instruction schar 8 = some instruction_jf ∧
    get_instruction schar 9 = some instruction_add ∧
    get_instruction schar 10 = some instruction_mult ∧
    get_instruction schar 11 = some instruction_mod ∧
    get_instruction schar 12 = some instruction_and ∧
    get_instruction schar 13 = some instruction_or ∧
    get_instruction schar 14 = some instruction_not ∧
    get_instruction schar 15 = some instruction_rmem ∧
    get_instruction schar 16 = some instruction_wmem ∧
    get_instruction schar 17 = some instruction_call ∧
    get_instruction schar 18 = some instruction_ret ∧
    get_instruction schar 19 = some instruction_out ∧
    get_instruction schar 20 = some (instruction_in schar) ∧
    get_instruction schar 21 = some instruction_noop := by
  have hnone : ∀ w, 21 < w → get_instruction schar w = none := by
    intro w hw
    unfold get_instruction
    repeat (rw [if_neg (by omega)])
  refine ⟨?_, ?_, ?_, rfl, rfl, rfl, rfl, rfl, rfl, rfl, rfl, rfl, rfl, rfl, rfl, rfl,
    rfl, rfl, rfl, rfl, rfl, rfl, rfl, rfl, rfl⟩
  · intro w
    constructor
    · intro h
      by_contra hw
      have hw2 : w ≤ 21 := by omega
      interval_cases w <;> simp [get_instruction] at h
    · exact hnone w
  · intro s w buf hw
    simp [operate, hnone w hw]
  · intro s w hop hw
    simp [parse_iter, get_next_pair_of_word_at hop, operate, hnone w hw]

/-- Witness for C16: the words 22 and 78 fetched as opcodes. -/
theorem dispatch_table_witness :
    operate true blank 22 2 = none ∧
    parse_iter true (machine_of_words [78] []) = none :=
  ⟨(dispatch_table true).2.1 blank 22 2 (by decide),
   (dispatch_table true).2.2.1 (machine_of_words [78] []) 78 (by decide) (by decide)⟩

/-! ## End-to-end runs -/

/-- C17 fails: on the image `17, 4, 19, 89, 0, 19, 88, 18` the `call 4` jumps
to word address 4, which holds `halt`; the run ends after two instructions
with no byte emitted. -/
theorem call_4_reaches_halt_counterexample :
    ∃ s, parse true 2 (image_of_words call_program) [] = some s ∧
      s.output = [] ∧ s.output ≠ [88, 89] ∧ s.rPC = 8 ∧ word_at s s.rPC = some 0 := by
  refine ⟨_, rfl, ?_, ?_, ?_, ?_⟩ <;> decide

/-- C17, amended: on the image `17, 4, 19, 89, 0, 19, 88, 18` the engine
emits no byte and halts normally at word address 4, the return address 2
left on the stack; on the image `17, 5, 19, 89, 0, 19, 88, 18`, whose call is
aimed at the subroutine, it emits exactly the bytes 88 ('X') and 89 ('Y') and
halts normally with the stack empty. -/
theorem call_program_runs (schar : Bool) :
    (∃ s, parse schar 2 (image_of_words call_program) [] = some s ∧ s.output = [] ∧
      s.rPC = 2 * 4 ∧ s.stack.pointer = 1 ∧ s.stack.data 0 = 2) ∧
    (∃ s, parse schar 5 (image_of_words call_program_to_5) [] = some s ∧
      s.output = [88, 89] ∧ s.stack.pointer = 0) := by
  cases schar
  · refine ⟨⟨_, rfl, ?_, ?_, ?_, ?_⟩, ⟨_, rfl, ?_, ?_⟩⟩ <;> decide
  · refine ⟨⟨_, rfl, ?_, ?_, ?_, ?_⟩, ⟨_, rfl, ?_, ?_⟩⟩ <;> decide

/-- C18 fails: on the image `1, 32768, 0, 8, 32768, 7, 19, 78, 0, 19, 89, 0`
the `jf` jump lands on word address 7, the operand 78 of `out 78`; 78 is no
opcode, the next iteration stops with an error before any byte is emitted,
and no amount of fuel makes the run end in a normal halt. -/
theorem jf_to_7_unknown_opcode_counterexample :
    (∃ s1 s2, parse_iter true (machine_of_words jf_program []) = some (.running, s1) ∧
      parse_iter true s1 = some (.running, s2) ∧
      reg_read s2 .r0 = 0 ∧ s2.rPC = 2 * 7 ∧ s2.output = [] ∧
      word_at s2 s2.rPC = some 78 ∧ parse_iter true s2 = none) ∧
    ∀ fuel, parse true fuel (image_of_words jf_program) [] = none := by
  refine ⟨⟨_, _, rfl, rfl, ?_, ?_, ?_, ?_, rfl⟩, ?_⟩
  · decide
  · decide
  · decide
  · decide
  · intro fuel
    rcases fuel with _ | _ | _ | fuel <;> rfl

/-- C18, amended: on the image `1, 32768, 0, 8, 32768, 7, 19, 78, 0, 19, 89, 0`
the engine sets `r0` to 0 and takes the `jf` jump to word address 7, where
the word 78 is no opcode: it stops with an unknown-opcode error, no byte
emitted.  On the image `1, 32768, 0, 8, 32768, 9, 19, 78, 0, 19, 89, 0`, whose
jump is aimed at `out 89`, it sets `r0` to 0, emits exactly the byte 89 ('Y')
and halts normally. -/
theorem jf_program_runs (schar : Bool) :
    (∃ s1 s2, parse_iter schar (machine_of_words jf_program []) = some (.running, s1) ∧
      parse_iter schar s1 = some (.running, s2) ∧
      reg_read s2 .r0 = 0 ∧ s2.rPC = 2 * 7 ∧ s2.output = [] ∧
      word_at s2 s2.rPC = some 78 ∧ get_instruction schar 78 = none ∧
      parse_iter schar s2 = none) ∧
    (∃ s, parse schar 4 (image_of_words jf_program_to_9) [] = some s ∧
      reg_read s .r0 = 0 ∧ s.output = [89]) := by
  cases schar
  · refine ⟨⟨_, _, rfl, rfl, ?_, ?_, ?_, ?_, rfl, rfl⟩, ⟨_, rfl, ?_, ?_⟩⟩ <;> decide
  · refine ⟨⟨_, _, rfl, rfl, ?_, ?_, ?_, ?_, rfl, rfl⟩, ⟨_, rfl, ?_, ?_⟩⟩ <;> decide

theorem char_to_u16_mod (schar : Bool) (q : Nat) (hq : q ≤ 255) :
    char_to_u16 schar ((q % 256 : Nat) : Int) % 256 = q := by
  unfold char_to_u16 to_u16
  cases schar <;> simp <;> omega

theorem in_reads_byte {schar : Bool} {s : Machine} {a c : Nat} {rest : List Nat} {ra : Reg}
    (hop : word_at s s.rPC = some 20)
    (ha : word_at s (s.rPC + 2) = some a)
    (hra : get_register a = some ra)
    (hin : s.input = c :: rest) :
    parse_iter schar s =
      some (.running,
        { (reg_write { s with input := rest } ra
            (char_to_u16 schar ((c % 256 : Nat) : Int))) with rPC := s.rPC + 4 }) := by
  have hb := word_at_bound ha
  have hu : to_u16 ((s.rPC : Int) + 2 + 2) = s.rPC + 4 := by unfold to_u16; omega
  have hg : getchar s = (((c % 256 : Nat) : Int), { s with input := rest }) := by
    unfold getchar; rw [hin]
  simp [parse_iter, operate, get_instruction, instruction_in, store_reg,
    get_next_pair_of_word_at hop, get_next_pair_of_word_at ha, hra, hg, advance, hu]
  omega

theorem out_emits_byte {schar : Bool} {s : Machine} {a v : Nat}
    (hop : word_at s s.rPC = some 19)
    (ha : word_at s (s.rPC + 2) = some a)
    (hv : load_operand s a = some v) :
    parse_iter schar s =
      some (.running, { s with output := s.output ++ [v % 256], rPC := s.rPC + 4 }) := by
  have hb := word_at_bound ha
  have hu : to_u16 ((s.rPC : Int) + 2 + 2) = s.rPC + 4 := by unfold to_u16; omega
  simp [parse_iter, operate, get_instruction, instruction_out,
    get_next_pair_of_word_at hop, get_next_pair_of_word_at ha, hv, advance, hu]
  omega

theorem halt_stops {schar : Bool} {s : Machine} (hop : word_at s s.rPC = some 0) :
    parse_iter schar s = some (.halted, s) := by
  simp [parse_iter, operate, get_instruction, instruction_halt,
    get_next_pair_of_word_at hop]

/-- C19: on the image `20, 32768, 19, 32768, 0` with an input whose first
byte is `q` (0..255), the engine halts normally after three instructions
having emitted exactly the byte `q`, which is the value `in` stored in `r0`
reduced modulo 256; the rest of the input is left unread. -/
theorem echo_one_byte (schar : Bool) (q : Nat) (rest : List Nat) (hq : q ≤ 255) :
    ∃ s, parse schar 3 (image_of_words echo_program) (q :: rest) = some s ∧
      s.output = [q] ∧ s.r0 % 256 = q ∧ s.r0 = char_to_u16 schar (q : Int) ∧
      s.input = rest := by
  have hmod : q % 256 = q := by omega
  have hbyte := char_to_u16_mod schar q hq
  rw [hmod] at hbyte
  obtain ⟨s0, hs0, hboot⟩ : ∃ s0, s0 = machine_of_words echo_program (q :: rest) ∧
      boot (image_of_words echo_program) (q :: rest) = some s0 := ⟨_, rfl, rfl⟩
  have h1 : parse_iter schar s0 = some (.running,
      { (reg_write { s0 with input := rest } .r0
          (char_to_u16 schar ((q % 256 : Nat) : Int))) with rPC := s0.rPC + 4 }) := by
    subst hs0
    exact in_reads_byte rfl rfl rfl rfl
  rw [hmod] at h1
  obtain ⟨s1, hs1, h1⟩ : ∃ s1, s1 = { (reg_write { s0 with input := rest } .r0
      (char_to_u16 schar (q : Int))) with rPC := s0.rPC + 4 } ∧
      parse_iter schar s0 = some (.running, s1) := ⟨_, rfl, h1⟩
  have h2 : parse_iter schar s1 = some (.running,
      { s1 with output := s1.output ++ [char_to_u16 schar (q : Int) % 256],
                rPC := s1.rPC + 4 }) := by
    subst hs1 hs0
    exact out_emits_byte rfl rfl rfl
  obtain ⟨s2, hs2, h2⟩ : ∃ s2, s2 = { s1 with
      output := s1.output ++ [char_to_u16 schar (q : Int) % 256], rPC := s1.rPC + 4 } ∧
      parse_iter schar s1 = some (.running, s2) := ⟨_, rfl, h2⟩
  have h3 : parse_iter schar s2 = some (.halted, s2) := by
    subst hs2 hs1 hs0
    exact halt_stops rfl
  refine ⟨s2, ?_, ?_, ?_, ?_, ?_⟩
  · simp [parse, hboot, parse_loop, h1, h2, h3]
  · subst hs2 hs1 hs0
    show [] ++ [char_to_u16 schar (q : Int) % 256] = [q]
    rw [hbyte]; rfl
  · subst hs2 hs1 hs0
    exact hbyte
  · subst hs2 hs1 hs0
    rfl
  · subst hs2 hs1 hs0
    rfl

/-- Witness for C19: the input `Q` (byte 81). -/
theorem echo_one_byte_witness :
    ∃ s, parse true 3 (image_of_words echo_program) (81 :: []) = some s ∧
      s.output = [81] ∧ s.r0 % 256 = 81 ∧ s.r0 = char_to_u16 true (81 : Int) ∧
      s.input = [] :=
  echo_one_byte true 81 [] (by decide)

/-! ## Program counter in reachable states -/

theorem to_u16_even {x : Int} (h : x % 2 = 0) : to_u16 x % 2 = 0 := by
  unfold to_u16; omega

theorem parse_iter_pc_even {schar : Bool} {s s' : Machine}
    (h : parse_iter schar s = some (.running, s')) (hs : s.rPC % 2 = 0) :
    s'.rPC % 2 = 0 ∧ s'.rPC < 65536 := by
  obtain ⟨op, t, ret, -, hexec, hret, rfl⟩ := parse_iter_running h
  obtain ⟨-, -, -, hshape⟩ := operate_effect hexec
  show to_u16 ret % 2 = 0 ∧ to_u16 ret < 65536
  refine ⟨?_, to_u16_lt ret⟩
  have hadv : ∀ k, advance s (2 * k) % 2 = 0 := by
    intro k; unfold advance; omega
  split_ifs at hshape with h0 h1 h2
  · exact absurd hshape hret
  · obtain ⟨x, rfl⟩ := hshape
    exact to_u16_even (by omega)
  · rcases hshape with rfl | ⟨x, rfl⟩
    · exact to_u16_even (hadv 2)
    · exact to_u16_even (by omega)
  · subst hshape
    exact to_u16_even (hadv _)

theorem reachable_pc_even {schar : Bool} {file input : List Nat} {s : Machine}
    (h : Reachable schar file input s) : s.rPC % 2 = 0 ∧ s.rPC < 65536 := by
  induction h with
  | start hb =>
    simp [boot] at hb
    obtain ⟨m, -, rfl⟩ := hb
    exact ⟨rfl, Nat.zero_lt_succ _⟩
  | iter _ hstep ih => exact parse_iter_pc_even hstep ih.1

/-- C20: in every state the fetch loop reaches from the booted machine, the
byte offset `rPC` is even and `rPC / 2` is in 0..32767. -/
theorem reachable_pc_is_word_address (schar : Bool) (file input : List Nat) (s : Machine)
    (h : Reachable schar file input s) : s.rPC % 2 = 0 ∧ s.rPC / 2 ≤ 32767 := by
  have := reachable_pc_even h
  omega

/-- Witness for C20: the state after `jmp 32767` at address 0. -/
theorem reachable_pc_is_word_address_witness :
    ({ machine_of_words [6, 32767] [] with rPC := 65534 } : Machine).rPC % 2 = 0 ∧
    ({ machine_of_words [6, 32767] [] with rPC := 65534 } : Machine).rPC / 2 ≤ 32767 :=
  reachable_pc_is_word_address true (image_of_words [6, 32767]) [] _
    (Reachable.iter (Reachable.start rfl) rfl)

end Synacor
